import Mathlib

/-!
Verification of the TOEditor snapshot-diff and SVG-layout core.

The definitions below are a shallow embedding of `src/models/version.rs`
(snapshots and `diff_snapshots` / `diff_json_values`) and `src/export/svg.rs`
(`subtree_width`, `layout_unit`, `max_depth`, `export_svg`).

Modelling conventions:
- `serde_json::Value` becomes the mutual inductive `Json`/`JsonList`/`JsonFields`.
  Objects are insertion-ordered association lists (the Cargo manifest that fixes
  serde_json's map representation is not part of the sources; the spec describes
  insertion-ordered maps, so object fields are modelled in document order).
  Numbers are modelled as integers, which covers every payload the library
  serializes and every payload appearing in the repository's tests.
- Rust `f64` layout arithmetic becomes exact `ℚ` arithmetic; every operation the
  layout performs (+, -, *, /2, max) is exact in `f64` for the magnitudes involved.
- `Vec<T>` of a recursively-defined element type becomes a mutually inductive
  list type so that all recursion stays structural.
- Functions that push into a mutable `Vec<String>` accumulator are modelled as
  pure functions returning the pushed strings in order.
-/

set_option maxHeartbeats 1000000

namespace TOE

mutual

/-- Generic JSON value tree, modelling `serde_json::Value` (`src/models/version.rs`
uses it through `serde_json::from_str`). Objects keep their fields in document
(insertion) order. -/
inductive Json where
  | null : Json
  | bool : Bool → Json
  | num : Int → Json
  | str : String → Json
  | arr : JsonList → Json
  | obj : JsonFields → Json

/-- List of JSON values (the payload of `Value::Array`). -/
inductive JsonList where
  | nil : JsonList
  | cons : Json → JsonList → JsonList

/-- Ordered association list of fields (the payload of `Value::Object`). -/
inductive JsonFields where
  | nil : JsonFields
  | cons : String → Json → JsonFields → JsonFields

end

end TOE

mutual

/-- Convert a `JsonList` to an ordinary `List`. -/
def TOE.JsonList.toList : TOE.JsonList → List TOE.Json
  | .nil => []
  | .cons x xs => x :: TOE.JsonList.toList xs

/-- Convert a `JsonFields` to an ordinary `List` of key/value pairs. -/
def TOE.JsonFields.toList : TOE.JsonFields → List (String × TOE.Json)
  | .nil => []
  | .cons k v tl => (k, v) :: TOE.JsonFields.toList tl

end

namespace TOE

/-- Number of elements of a JSON array (`Vec::len`). -/
def JsonList.length : JsonList → Nat
  | .nil => 0
  | .cons _ xs => JsonList.length xs + 1

/-- Field lookup by key, modelling the map's `get`: the unique entry with the
given key (parsed objects never hold a key twice). -/
def JsonFields.lookup : JsonFields → String → Option Json
  | .nil, _ => none
  | .cons k v tl, key => if k = key then some v else JsonFields.lookup tl key

/-- Key membership test, modelling the map's `contains_key`. -/
def JsonFields.containsKey (fs : JsonFields) (key : String) : Bool :=
  (JsonFields.lookup fs key).isSome

/-- Remove every field with the given key (used to model re-insertion of a
duplicate key during parsing). -/
def JsonFields.removeKey : JsonFields → String → JsonFields
  | .nil, _ => .nil
  | .cons k v tl, key =>
    if k = key then JsonFields.removeKey tl key
    else .cons k v (JsonFields.removeKey tl key)

end TOE

mutual

/-- Structural equality of JSON values, modelling `serde_json::Value`'s `==`
(the guard `old == new` in `diff_json_values`). For objects produced by the
parser the fields are keyed uniquely in document order, so fieldwise equality
coincides with map equality. -/
def TOE.Json.beq : TOE.Json → TOE.Json → Bool
  | .null, .null => true
  | .bool a, .bool b => a = b
  | .num a, .num b => a = b
  | .str a, .str b => a = b
  | .arr a, .arr b => TOE.JsonList.beq a b
  | .obj a, .obj b => TOE.JsonFields.beq a b
  | _, _ => false

/-- Elementwise equality of JSON arrays. -/
def TOE.JsonList.beq : TOE.JsonList → TOE.JsonList → Bool
  | .nil, .nil => true
  | .cons x xs, .cons y ys => TOE.Json.beq x y && TOE.JsonList.beq xs ys
  | _, _ => false

/-- Fieldwise equality of JSON objects. -/
def TOE.JsonFields.beq : TOE.JsonFields → TOE.JsonFields → Bool
  | .nil, .nil => true
  | .cons k v tl, .cons k2 v2 tl2 =>
    (k = k2 : Bool) && TOE.Json.beq v v2 && TOE.JsonFields.beq tl tl2
  | _, _ => false

end

mutual

/-- Well-formedness of a parsed JSON value: every object keys each field at most
once, recursively. `serde_json` maps cannot hold a key twice, so every value
produced by parsing satisfies this (proved below as `parse_wf`). -/
def TOE.Json.wf : TOE.Json → Bool
  | .null => true
  | .bool _ => true
  | .num _ => true
  | .str _ => true
  | .arr xs => TOE.JsonList.wf xs
  | .obj fs => TOE.JsonFields.wf fs

/-- Well-formedness of every element of an array. -/
def TOE.JsonList.wf : TOE.JsonList → Bool
  | .nil => true
  | .cons x xs => TOE.Json.wf x && TOE.JsonList.wf xs

/-- Well-formedness of an object's fields: keys are pairwise distinct and the
values are themselves well-formed. -/
def TOE.JsonFields.wf : TOE.JsonFields → Bool
  | .nil => true
  | .cons k v tl =>
    !(TOE.JsonFields.containsKey tl k) && TOE.Json.wf v && TOE.JsonFields.wf tl

end

namespace TOE

mutual

theorem Json.beq_refl : ∀ a : Json, Json.beq a a = true
  | .null => rfl
  | .bool a => by simp [Json.beq]
  | .num a => by simp [Json.beq]
  | .str a => by simp [Json.beq]
  | .arr a => by simp [Json.beq, JsonList.beqList_refl a]
  | .obj a => by simp [Json.beq, JsonFields.beqFields_refl a]

theorem JsonList.beqList_refl : ∀ a : JsonList, JsonList.beq a a = true
  | .nil => rfl
  | .cons x xs => by simp [JsonList.beq, Json.beq_refl x, JsonList.beqList_refl xs]

theorem JsonFields.beqFields_refl : ∀ a : JsonFields, JsonFields.beq a a = true
  | .nil => rfl
  | .cons k v tl => by
    simp [JsonFields.beq, Json.beq_refl v, JsonFields.beqFields_refl tl]

end

mutual

theorem Json.beq_symm : ∀ a b : Json, Json.beq a b = Json.beq b a
  | .null, .null => rfl
  | .bool a, .bool b => by simp [Json.beq, eq_comm]
  | .num a, .num b => by simp [Json.beq, eq_comm]
  | .str a, .str b => by simp [Json.beq, eq_comm]
  | .arr a, .arr b => by simp [Json.beq, JsonList.beqList_symm a b]
  | .obj a, .obj b => by simp [Json.beq, JsonFields.beqFields_symm a b]
  | .null, .bool _ | .null, .num _ | .null, .str _ | .null, .arr _ | .null, .obj _ => rfl
  | .bool _, .null | .bool _, .num _ | .bool _, .str _ | .bool _, .arr _ | .bool _, .obj _ => rfl
  | .num _, .null | .num _, .bool _ | .num _, .str _ | .num _, .arr _ | .num _, .obj _ => rfl
  | .str _, .null | .str _, .bool _ | .str _, .num _ | .str _, .arr _ | .str _, .obj _ => rfl
  | .arr _, .null | .arr _, .bool _ | .arr _, .num _ | .arr _, .str _ | .arr _, .obj _ => rfl
  | .obj _, .null | .obj _, .bool _ | .obj _, .num _ | .obj _, .str _ | .obj _, .arr _ => rfl

theorem JsonList.beqList_symm : ∀ a b : JsonList, JsonList.beq a b = JsonList.beq b a
  | .nil, .nil => rfl
  | .cons x xs, .cons y ys => by
    simp [JsonList.beq, Json.beq_symm x y, JsonList.beqList_symm xs ys]
  | .nil, .cons _ _ | .cons _ _, .nil => rfl

theorem JsonFields.beqFields_symm : ∀ a b : JsonFields, JsonFields.beq a b = JsonFields.beq b a
  | .nil, .nil => rfl
  | .cons k v tl, .cons k2 v2 tl2 => by
    simp [JsonFields.beq, Json.beq_symm v v2, JsonFields.beqFields_symm tl tl2, eq_comm]
  | .nil, .cons _ _ _ | .cons _ _ _, .nil => rfl

end

end TOE

namespace TOE

/-- Escape one character the way `serde_json`'s compact serializer escapes
string contents (the common cases: quote, backslash and the usual control
characters). -/
def jsonEscapeChar (c : Char) : List Char :=
  if c = '\x22' then ['\\', '\x22']
  else if c = '\\' then ['\\', '\\']
  else if c = '\n' then ['\\', 'n']
  else if c = '\t' then ['\\', 't']
  else if c = '\r' then ['\\', 'r']
  else [c]

/-- Escape a string for inclusion in serialized JSON. -/
def jsonEscape (s : String) : String :=
  String.mk (s.data.flatMap jsonEscapeChar)

end TOE

mutual

/-- Compact rendering of a JSON value, modelling `serde_json::Value`'s
`Display` (used by `diff_json_values` through `format!("{}", value)`). -/
def TOE.Json.render : TOE.Json → String
  | .null => "null"
  | .bool b => cond b ("true") ("false")
  | .num n => toString n
  | .str s => "\x22" ++ TOE.jsonEscape s ++ "\x22"
  | .arr xs => "[" ++ TOE.JsonList.render xs ++ "]"
  | .obj fs => "\x7b" ++ TOE.JsonFields.render fs ++ "\x7d"

/-- Comma-separated rendering of array elements. -/
def TOE.JsonList.render : TOE.JsonList → String
  | .nil => ""
  | .cons x .nil => TOE.Json.render x
  | .cons x (.cons y ys) =>
    TOE.Json.render x ++ "," ++ TOE.JsonList.render (.cons y ys)

/-- Comma-separated rendering of object fields. -/
def TOE.JsonFields.render : TOE.JsonFields → String
  | .nil => ""
  | .cons k v .nil => "\x22" ++ TOE.jsonEscape k ++ "\x22:" ++ TOE.Json.render v
  | .cons k v (.cons k2 v2 tl) =>
    "\x22" ++ TOE.jsonEscape k ++ "\x22:" ++ TOE.Json.render v ++ "," ++
      TOE.JsonFields.render (.cons k2 v2 tl)

end

namespace TOE

/-- Drop leading JSON whitespace. -/
def skipWs : List Char → List Char
  | [] => []
  | c :: rest =>
    if c = ' ' ∨ c = '\n' ∨ c = '\t' ∨ c = '\r' then skipWs rest else c :: rest

/-- Match a literal suffix such as `ull` of `null`, returning the remainder. -/
def stripLit : List Char → List Char → Option (List Char)
  | [], cs => some cs
  | _ :: _, [] => none
  | l :: ls, c :: cs => if c = l then stripLit ls cs else none

/-- Translate a JSON string escape character to the character it denotes. -/
def escChar (c : Char) : Option Char :=
  if c = '\x22' then some '\x22'
  else if c = '\\' then some '\\'
  else if c = '/' then some '/'
  else if c = 'n' then some '\n'
  else if c = 't' then some '\t'
  else if c = 'r' then some '\r'
  else none

/-- Read the body of a JSON string literal after its opening quote, returning
the decoded characters and the input after the closing quote. -/
def parseStrChars : List Char → Option (List Char × List Char)
  | [] => none
  | c :: rest =>
    if c = '\x22' then some ([], rest)
    else if c = '\\' then
      match rest with
      | [] => none
      | e :: rest2 =>
        match escChar e with
        | none => none
        | some ec =>
          match parseStrChars rest2 with
          | none => none
          | some (cs, r) => some (ec :: cs, r)
    else
      match parseStrChars rest with
      | none => none
      | some (cs, r) => some (c :: cs, r)

/-- Accumulate decimal digits into a natural number. -/
def parseDigits : List Char → Nat → Nat × List Char
  | [], acc => (acc, [])
  | c :: rest, acc =>
    if c.isDigit then parseDigits rest (acc * 10 + (c.toNat - 48))
    else (acc, c :: rest)

/-- Insert a parsed field into an object's fields the way the serde map insert
does on a duplicate key: the field keeps its first position and takes the
latest value. `fs` holds the fields parsed after this one. -/
def insertField (k : String) (v : Json) (fs : JsonFields) : JsonFields :=
  match JsonFields.lookup fs k with
  | some w => JsonFields.cons k w (JsonFields.removeKey fs k)
  | none => JsonFields.cons k v fs

end TOE

mutual

/-- Fueled recursive-descent parser for one JSON value, modelling
`serde_json::from_str` for the JSON subset the library's serialized snapshots
use (numbers are integers; strings use the common escapes). Returns the value
and the unconsumed input. -/
def TOE.parseVal : Nat → List Char → Option (TOE.Json × List Char)
  | 0, _ => none
  | fuel + 1, cs =>
    match TOE.skipWs cs with
    | [] => none
    | c :: rest =>
      if c = 'n' then
        match TOE.stripLit (['u', 'l', 'l']) rest with
        | some r => some (TOE.Json.null, r)
        | none => none
      else if c = 't' then
        match TOE.stripLit (['r', 'u', 'e']) rest with
        | some r => some (TOE.Json.bool true, r)
        | none => none
      else if c = 'f' then
        match TOE.stripLit (['a', 'l', 's', 'e']) rest with
        | some r => some (TOE.Json.bool false, r)
        | none => none
      else if c = '\x22' then
        match TOE.parseStrChars rest with
        | some (cs2, r) => some (TOE.Json.str (String.mk cs2), r)
        | none => none
      else if c = '-' then
        match rest with
        | d :: _ =>
          if d.isDigit then
            match TOE.parseDigits rest 0 with
            | (n, r) => some (TOE.Json.num (-(n : Int)), r)
          else none
        | [] => none
      else if c.isDigit then
        match TOE.parseDigits (c :: rest) 0 with
        | (n, r) => some (TOE.Json.num (n : Int), r)
      else if c = '[' then
        match TOE.skipWs rest with
        | ']' :: r2 => some (TOE.Json.arr TOE.JsonList.nil, r2)
        | _ =>
          match TOE.parseElems fuel rest with
          | some (xs, r) => some (TOE.Json.arr xs, r)
          | none => none
      else if c = '\x7b' then
        match TOE.skipWs rest with
        | '\x7d' :: r2 => some (TOE.Json.obj TOE.JsonFields.nil, r2)
        | _ =>
          match TOE.parseFields fuel rest with
          | some (fs, r) => some (TOE.Json.obj fs, r)
          | none => none
      else none

/-- Parse the comma-separated elements of a non-empty array, including the
closing bracket. -/
def TOE.parseElems : Nat → List Char → Option (TOE.JsonList × List Char)
  | 0, _ => none
  | fuel + 1, cs =>
    match TOE.parseVal fuel cs with
    | none => none
    | some (v, r) =>
      match TOE.skipWs r with
      | ',' :: r2 =>
        match TOE.parseElems fuel r2 with
        | some (xs, r3) => some (TOE.JsonList.cons v xs, r3)
        | none => none
      | ']' :: r2 => some (TOE.JsonList.cons v TOE.JsonList.nil, r2)
      | _ => none

/-- Parse the comma-separated fields of a non-empty object, including the
closing brace. -/
def TOE.parseFields : Nat → List Char → Option (TOE.JsonFields × List Char)
  | 0, _ => none
  | fuel + 1, cs =>
    match TOE.skipWs cs with
    | '\x22' :: r =>
      match TOE.parseStrChars r with
      | none => none
      | some (kcs, r2) =>
        match TOE.skipWs r2 with
        | ':' :: r3 =>
          match TOE.parseVal fuel r3 with
          | none => none
          | some (v, r4) =>
            match TOE.skipWs r4 with
            | ',' :: r5 =>
              match TOE.parseFields fuel r5 with
              | some (fs, r6) => some (TOE.insertField (String.mk kcs) v fs, r6)
              | none => none
            | '\x7d' :: r5 => some (TOE.JsonFields.cons (String.mk kcs) v TOE.JsonFields.nil, r5)
            | _ => none
        | _ => none
    | _ => none

end

namespace TOE

/-- Parse a whole string as one JSON document, modelling `serde_json::from_str`:
the text must hold exactly one value followed only by whitespace. The fuel is
large enough for any input the recursion can consume. -/
def parseJson (s : String) : Option Json :=
  match parseVal (2 * s.data.length + 2) s.data with
  | some (v, r) => if skipWs r = [] then some v else none
  | none => none

end TOE

namespace TOE

/-- Dotted field path: `key` at the top level, otherwise `path.key`
(`diff_json_values`, src/models/version.rs lines 115-119). -/
def fieldPath (path key : String) : String :=
  if path = "" then key else path ++ "." ++ key

/-- Snapshot of a library at a specific version (src/models/version.rs).
Timestamps carry no algorithmic content and are plain integers here. -/
structure Snapshot where
  id : Option Int
  library_id : Int
  version : Int
  timestamp : Int
  data : String
  description : Option String

end TOE

mutual

/-- Recursive comparison of two JSON values, modelling `diff_json_values`
(src/models/version.rs lines 100-155): equal values produce nothing; objects
produce `Removed`/`Added`/recursion per key; arrays produce one length record
when lengths differ plus pairwise recursion; anything else produces one
`Changed` record. Returns the records pushed into `changes`, in push order. -/
def TOE.diff_json_values (path : String) (old new : TOE.Json) : List String :=
  if TOE.Json.beq old new then []
  else
    match old, new with
    | .obj old_map, .obj new_map =>
      TOE.diffFieldsOld path old_map new_map ++ TOE.diffFieldsNew path old_map new_map
    | .arr old_arr, .arr new_arr =>
      (if TOE.JsonList.length old_arr = TOE.JsonList.length new_arr then []
       else ["Changed: " ++ path ++ " (array length " ++
              toString (TOE.JsonList.length old_arr) ++ " -> " ++
              toString (TOE.JsonList.length new_arr) ++ ")"]) ++
        TOE.diffElems path 0 old_arr new_arr
    | _, _ =>
      ["Changed: " ++ path ++ " (" ++ TOE.Json.render old ++ " -> " ++
        TOE.Json.render new ++ ")"]

/-- First object loop of `diff_json_values`: walk the old map in order; a key
missing from the new map yields `Removed`, a shared key recurses. -/
def TOE.diffFieldsOld (path : String) (old_map new_map : TOE.JsonFields) : List String :=
  match old_map with
  | .nil => []
  | .cons k v tl =>
    (match TOE.JsonFields.lookup new_map k with
     | some nv => TOE.diff_json_values (TOE.fieldPath path k) v nv
     | none => ["Removed: " ++ TOE.fieldPath path k]) ++
      TOE.diffFieldsOld path tl new_map

/-- Second object loop of `diff_json_values`: walk the new map in order; a key
missing from the old map yields `Added`. -/
def TOE.diffFieldsNew (path : String) (old_map new_map : TOE.JsonFields) : List String :=
  match new_map with
  | .nil => []
  | .cons k _ tl =>
    (if TOE.JsonFields.containsKey old_map k then []
     else ["Added: " ++ TOE.fieldPath path k]) ++
      TOE.diffFieldsNew path old_map tl

/-- Array loop of `diff_json_values`: recurse pairwise over indices
`0..min(len_old, len_new)` with path suffix `path[i]`; `i` is the index of the
current head. -/
def TOE.diffElems (path : String) (i : Nat) (old_arr new_arr : TOE.JsonList) : List String :=
  match old_arr, new_arr with
  | .cons x xs, .cons y ys =>
    TOE.diff_json_values (path ++ "[" ++ toString i ++ "]") x y ++
      TOE.diffElems path (i + 1) xs ys
  | _, _ => []

end

namespace TOE

/-- Leading synthetic entry of every diff: the version transition. -/
def versionLine (old new : Snapshot) : String :=
  "Version " ++ toString old.version ++ " -> " ++ toString new.version

/-- Record list produced by `diff_snapshots` (src/models/version.rs lines
67-97) before the final `join("\n")`: the version line, then either the
"no changes" record, the structural records, the "no structural differences"
record, or the parse-failure record. -/
def diff_snapshots_lines (old new : Snapshot) : List String :=
  let head := versionLine old new
  if old.data = new.data then [head, "No data changes."]
  else
    match parseJson old.data, parseJson new.data with
    | some old_v, some new_v =>
      match diff_json_values ("") old_v new_v with
      | [] => [head, "Data changed but no structural differences detected."]
      | recs => head :: recs
    | _, _ => [head, "Data format changed (could not parse as JSON)."]

/-- Human-readable diff between two snapshots, modelling `diff_snapshots`:
the records joined with newlines. -/
def diff_snapshots (old new : Snapshot) : String :=
  String.intercalate "\n" (diff_snapshots_lines old new)

end TOE

namespace TOE

/-- Personnel position with optional rank (src/models/library.rs). -/
structure Personnel where
  position : String
  rank : Option String

/-- Equipment with name and quantity (src/models/library.rs; `quantity: usize`). -/
structure Equipment where
  name : String
  quantity : Nat

mutual

/-- Organizational unit (src/models/library.rs `struct Unit`): identity fields,
personnel, equipment, and exclusively owned children. -/
inductive Unit where
  | mk : Option Int → String → String → Option Int →
      List Personnel → List Equipment → UnitList → Unit

/-- Ordered sequence of child units (`Vec<Unit>`). -/
inductive UnitList where
  | nil : UnitList
  | cons : Unit → UnitList → UnitList

end

/-- Unit id projection. -/
def Unit.id : Unit → Option Int
  | .mk i _ _ _ _ _ _ => i

/-- Unit name projection. -/
def Unit.name : Unit → String
  | .mk _ n _ _ _ _ _ => n

/-- Unit type projection. -/
def Unit.unit_type : Unit → String
  | .mk _ _ t _ _ _ _ => t

/-- Unit parent id projection. -/
def Unit.parent_id : Unit → Option Int
  | .mk _ _ _ p _ _ _ => p

/-- Unit personnel projection. -/
def Unit.personnel : Unit → List Personnel
  | .mk _ _ _ _ ps _ _ => ps

/-- Unit equipment projection. -/
def Unit.equipment : Unit → List Equipment
  | .mk _ _ _ _ _ es _ => es

/-- Unit children projection. -/
def Unit.children : Unit → UnitList
  | .mk _ _ _ _ _ _ cs => cs

/-- Number of units in a sequence. -/
def UnitList.length : UnitList → Nat
  | .nil => 0
  | .cons _ us => UnitList.length us + 1

/-- Library root aggregate (src/models/library.rs `struct Library`). -/
structure Library where
  id : Option Int
  name : String
  country : String
  era : String
  author : String
  version : Int
  tags : List String
  units : UnitList

/-- Fixed box width (src/export/svg.rs `BOX_WIDTH`). -/
def BOX_WIDTH : ℚ := 160

/-- Fixed box height (`BOX_HEIGHT`). -/
def BOX_HEIGHT : ℚ := 50

/-- Horizontal spacing between siblings (`H_SPACING`). -/
def H_SPACING : ℚ := 30

/-- Vertical spacing between tree levels (`V_SPACING`). -/
def V_SPACING : ℚ := 60

/-- Outer padding (`PADDING`). -/
def PADDING : ℚ := 40

mutual

/-- Total width needed for a unit subtree (src/export/svg.rs lines 23-35):
a leaf occupies `BOX_WIDTH`; otherwise the children's total width (their
subtree widths plus `H_SPACING` gaps), but never less than `BOX_WIDTH`. -/
def subtree_width : Unit → ℚ
  | .mk _ _ _ _ _ _ .nil => BOX_WIDTH
  | .mk _ _ _ _ _ _ (.cons c cs) =>
    max (sum_widths (.cons c cs) +
          H_SPACING * max ((UnitList.length (.cons c cs) : ℚ) - 1) 0)
      BOX_WIDTH

/-- Sum of the subtree widths of a sequence of units. -/
def sum_widths : UnitList → ℚ
  | .nil => 0
  | .cons u us => subtree_width u + sum_widths us

end

mutual

/-- Computed layout node (src/export/svg.rs `struct LayoutNode`): top-left box
coordinates, label, sublabel and laid-out children. -/
inductive LayoutNode where
  | mk : ℚ → ℚ → String → String → LayoutNodeList → LayoutNode

/-- Ordered sequence of layout nodes. -/
inductive LayoutNodeList where
  | nil : LayoutNodeList
  | cons : LayoutNode → LayoutNodeList → LayoutNodeList

end

/-- Layout node x projection. -/
def LayoutNode.x : LayoutNode → ℚ
  | .mk x _ _ _ _ => x

/-- Layout node y projection. -/
def LayoutNode.y : LayoutNode → ℚ
  | .mk _ y _ _ _ => y

/-- Layout node label projection. -/
def LayoutNode.label : LayoutNode → String
  | .mk _ _ l _ _ => l

/-- Layout node sublabel projection. -/
def LayoutNode.sublabel : LayoutNode → String
  | .mk _ _ _ s _ => s

/-- Layout node children projection. -/
def LayoutNode.children : LayoutNode → LayoutNodeList
  | .mk _ _ _ _ cs => cs

/-- Sublabel text derived for a unit: personnel count and summed equipment
quantity at that node only (src/export/svg.rs lines 40-44). -/
def unit_sublabel (personnel : List Personnel) (equipment : List Equipment) : String :=
  "P:" ++ toString personnel.length ++ " E:" ++
    toString (equipment.map Equipment.quantity).sum

mutual

/-- Layout of a unit tree starting at `(x, y)` centered on `available_width`
(src/export/svg.rs lines 38-74): the box is centered in the allocated interval,
children are laid out on the next row starting at `cx - total_children_width/2`
with `H_SPACING` gaps, each allocated its own subtree width. -/
def layout_unit : Unit → ℚ → ℚ → ℚ → LayoutNode
  | .mk _ name _ _ personnel equipment children, x, y, available_width =>
    let cx := x + available_width / 2
    LayoutNode.mk (cx - BOX_WIDTH / 2) y name (unit_sublabel personnel equipment)
      (match children with
       | .nil => LayoutNodeList.nil
       | .cons c cs =>
         layout_children (.cons c cs)
           (cx - (sum_widths (.cons c cs) +
                   H_SPACING * max ((UnitList.length (.cons c cs) : ℚ) - 1) 0) / 2)
           (y + BOX_HEIGHT + V_SPACING))

/-- Child-layout loop of `layout_unit`: place children left to right from
`cur_x`, advancing by each child's subtree width plus `H_SPACING`. -/
def layout_children : UnitList → ℚ → ℚ → LayoutNodeList
  | .nil, _, _ => LayoutNodeList.nil
  | .cons c cs, cur_x, child_y =>
    LayoutNodeList.cons (layout_unit c cur_x child_y (subtree_width c))
      (layout_children cs (cur_x + subtree_width c + H_SPACING) child_y)

end

mutual

/-- Maximum depth of a layout tree (src/export/svg.rs lines 77-83). -/
def max_depth : LayoutNode → Nat
  | .mk _ _ _ _ .nil => 1
  | .mk _ _ _ _ (.cons c cs) => 1 + maxDepthList (.cons c cs)

/-- Maximum of `max_depth` over a sequence (`iter().map(max_depth).max()`,
with 0 for an empty sequence as `unwrap_or(0)`). -/
def maxDepthList : LayoutNodeList → Nat
  | .nil => 0
  | .cons c cs => max (max_depth c) (maxDepthList cs)

end

end TOE

namespace TOE

/-- Escape one character for XML text (src/export/svg.rs `xml_escape`). The
source applies four chained single-character `replace` calls; since every
pattern is a single character and no replacement introduces a pattern character
that an earlier replace has not already consumed, this equals one simultaneous
character-wise pass. -/
def xmlEscapeChar (c : Char) : List Char :=
  if c = '&' then ('&' :: ("amp;").data)
  else if c = '<' then ('&' :: ("lt;").data)
  else if c = '>' then ('&' :: ("gt;").data)
  else if c = '\x22' then ('&' :: ("quot;").data)
  else [c]

/-- Escape special XML characters (src/export/svg.rs lines 127-132). -/
def xml_escape (s : String) : String :=
  String.mk (s.data.flatMap xmlEscapeChar)

/-- Decimal rendering of a coordinate, modelling `f64`'s `Display` for the
values the layout produces: every coordinate is an integer or an exact half,
printed as Rust prints the corresponding `f64` (`40`, `12.5`). -/
def ratToStr (q : ℚ) : String :=
  if q.den = 1 then toString q.num
  else if q.den = 2 then toString (q.num / 2) ++ ".5"
  else toString q.num ++ "/" ++ toString q.den

/-- Connector path element between a parent's bottom-center and a child's
top-center (src/export/svg.rs lines 91-99): down, across, down. -/
def svg_path_elem (cx cy mid_y child_cx child_top : ℚ) : String :=
  "  <path d=\x22M" ++ ratToStr cx ++ "," ++ ratToStr cy ++
    " L" ++ ratToStr cx ++ "," ++ ratToStr mid_y ++
    " L" ++ ratToStr child_cx ++ "," ++ ratToStr mid_y ++
    " L" ++ ratToStr child_cx ++ "," ++ ratToStr child_top ++
    "\x22 fill=\x22none\x22 stroke=\x22#666\x22 stroke-width=\x221.5\x22/>"

/-- Box rectangle element (src/export/svg.rs lines 104-107). -/
def svg_rect_elem (x y : ℚ) : String :=
  "  <rect x=\x22" ++ ratToStr x ++ "\x22 y=\x22" ++ ratToStr y ++
    "\x22 width=\x22" ++ ratToStr BOX_WIDTH ++ "\x22 height=\x22" ++ ratToStr BOX_HEIGHT ++
    "\x22 rx=\x226\x22 ry=\x226\x22 fill=\x22#f0f4f8\x22 stroke=\x22#4a6fa5\x22 stroke-width=\x221.5\x22/>"

/-- Label text element (src/export/svg.rs lines 108-113). -/
def svg_label_elem (x y : ℚ) (escaped_label : String) : String :=
  "  <text x=\x22" ++ ratToStr (x + BOX_WIDTH / 2) ++ "\x22 y=\x22" ++ ratToStr (y + 20) ++
    "\x22 text-anchor=\x22middle\x22 font-size=\x2212\x22 font-family=\x22sans-serif\x22 fill=\x22#1a1a2e\x22>" ++
    escaped_label ++ "</text>"

/-- Sublabel text element (src/export/svg.rs lines 114-119). -/
def svg_sublabel_elem (x y : ℚ) (escaped_sub : String) : String :=
  "  <text x=\x22" ++ ratToStr (x + BOX_WIDTH / 2) ++ "\x22 y=\x22" ++ ratToStr (y + 38) ++
    "\x22 text-anchor=\x22middle\x22 font-size=\x2210\x22 font-family=\x22sans-serif\x22 fill=\x22#666\x22>" ++
    escaped_sub ++ "</text>"

/-- Connector elements from a parent box at `(x, y)` to each child in order
(the first loop of `render_node`). -/
def child_paths (x y : ℚ) : LayoutNodeList → List String
  | .nil => []
  | .cons c cs =>
    svg_path_elem (x + BOX_WIDTH / 2) (y + BOX_HEIGHT)
        (y + BOX_HEIGHT + V_SPACING / 2) (LayoutNode.x c + BOX_WIDTH / 2)
        (LayoutNode.y c) ::
      child_paths x y cs

end TOE

mutual

/-- Render a layout node and its children to SVG elements, in the push order of
`render_node` (src/export/svg.rs lines 86-124): connectors to the children,
the box, the two text elements, then the children recursively. -/
def TOE.render_node : TOE.LayoutNode → List String
  | .mk x y label sub children =>
    TOE.child_paths x y children ++
      (TOE.svg_rect_elem x y ::
        TOE.svg_label_elem x y (TOE.xml_escape label) ::
        TOE.svg_sublabel_elem x y (TOE.xml_escape sub) :: []) ++
      TOE.render_nodes children

/-- Render a sequence of layout nodes in order. -/
def TOE.render_nodes : TOE.LayoutNodeList → List String
  | .nil => []
  | .cons c cs => TOE.render_node c ++ TOE.render_nodes cs

end

namespace TOE

/-- Root-layout loop of `export_svg` (src/export/svg.rs lines 155-161): lay out
the top-level units side by side starting at the running width `tw` (initially
`PADDING`), on row `PADDING + 30`, each allocated its own subtree width, and
advance the running width by that width plus `H_SPACING * 2`. Returns the
layouts and the final running width (before the trailing `PADDING`). -/
def root_layouts : UnitList → ℚ → LayoutNodeList × ℚ
  | .nil, tw => (.nil, tw)
  | .cons u us, tw =>
    let w := subtree_width u
    let node := layout_unit u tw (PADDING + 30) w
    let rest := root_layouts us (tw + w + H_SPACING * 2)
    (.cons node rest.1, rest.2)

/-- Depth used by `export_svg`: `layouts.iter().map(max_depth).max().unwrap_or(1)`. -/
def depth_or_one : LayoutNodeList → Nat
  | .nil => 1
  | .cons c cs => maxDepthList (.cons c cs)

/-- Canvas dimensions computed by `export_svg` (src/export/svg.rs lines
141-165): the fixed 400 by 100 canvas for an empty library, otherwise the final
running width plus the trailing padding, and
`PADDING * 2 + 30 + depth * (BOX_HEIGHT + V_SPACING)`. -/
def export_dims (library : Library) : ℚ × ℚ :=
  match library.units with
  | .nil => (400, 100)
  | .cons u us =>
    let r := root_layouts (.cons u us) PADDING
    let total_width := r.2 + PADDING
    let depth := depth_or_one r.1
    (total_width, PADDING * 2 + 30 + (depth : ℚ) * (BOX_HEIGHT + V_SPACING))

/-- Title element of a non-empty export (src/export/svg.rs lines 168-173). -/
def svg_title_elem (total_width : ℚ) (title : String) : String :=
  "  <text x=\x22" ++ ratToStr (total_width / 2) ++
    "\x22 y=\x2230\x22 text-anchor=\x22middle\x22 font-size=\x2218\x22 font-weight=\x22bold\x22 font-family=\x22sans-serif\x22 fill=\x22#1a1a2e\x22>" ++
    title ++ "</text>"

/-- Full SVG document produced by `export_svg` (src/export/svg.rs lines
138-188), modelling the written file's contents. An empty library produces the
fixed minimal canvas with the "(no units)" label; otherwise the tree layouts
are rendered inside a canvas sized by `export_dims` (the dimensions are written
through the `as i64` truncating cast). -/
def export_svg (library : Library) : String :=
  match library.units with
  | .nil =>
    "<?xml version=\x221.0\x22 encoding=\x22UTF-8\x22?>\n<svg xmlns=\x22http://www.w3.org/2000/svg\x22 width=\x22400\x22 height=\x22100\x22>\n  <text x=\x22200\x22 y=\x2250\x22 text-anchor=\x22middle\x22 font-size=\x2216\x22 font-family=\x22sans-serif\x22>" ++
      xml_escape library.name ++ " (no units)</text>\n</svg>"
  | .cons u us =>
    let r := root_layouts (.cons u us) PADDING
    let total_width := r.2 + PADDING
    let total_height := PADDING * 2 + 30 + ((depth_or_one r.1 : ℚ)) * (BOX_HEIGHT + V_SPACING)
    let elements := svg_title_elem total_width (xml_escape library.name) :: render_nodes r.1
    "<?xml version=\x221.0\x22 encoding=\x22UTF-8\x22?>\n<svg xmlns=\x22http://www.w3.org/2000/svg\x22 width=\x22" ++
      toString total_width.floor ++ "\x22 height=\x22" ++ toString total_height.floor ++
      "\x22>\n" ++ String.intercalate "\n" elements ++ "\n</svg>"

end TOE

namespace TOE

theorem string_head_ne {s t : String} (h : ¬ s.data.head? = t.data.head?) : ¬ s = t :=
  fun he => h (by rw [he])

theorem added_ne_removed (p q : String) : ¬ ("Added: " ++ p) = ("Removed: " ++ q) :=
  string_head_ne (show ¬ (some 'A' : Option Char) = some 'R' by decide)

theorem added_ne_changed (p q : String) : ¬ ("Added: " ++ p) = ("Changed: " ++ q) :=
  string_head_ne (show ¬ (some 'A' : Option Char) = some 'C' by decide)

theorem removed_ne_changed (p q : String) : ¬ ("Removed: " ++ p) = ("Changed: " ++ q) :=
  string_head_ne (show ¬ (some 'R' : Option Char) = some 'C' by decide)

theorem added_inj {p q : String} (h : ("Added: " ++ p) = ("Added: " ++ q)) : p = q :=
  String.ext (congrArg (fun s => s.data.drop 7) h)

theorem removed_inj {p q : String} (h : ("Removed: " ++ p) = ("Removed: " ++ q)) : p = q :=
  String.ext (congrArg (fun s => s.data.drop 9) h)

end TOE

namespace TOE

/-- C1: whenever `old.data` equals `new.data` byte for byte, `diff_snapshots`
returns the version-transition line followed by the single "No data changes."
record and nothing else, independently of whether the payloads parse. -/
theorem diff_snapshots_identical (old new : Snapshot) (h : old.data = new.data) :
    diff_snapshots_lines old new = [versionLine old new, "No data changes."] := by
  simp [diff_snapshots_lines, h]

/-- Witness for C1 at a concrete snapshot pair with byte-identical payloads. -/
theorem diff_snapshots_identical_witness :
    diff_snapshots_lines
        ⟨none, 1, 1, 0, "\x7b\x22name\x22:\x22A\x22\x7d", none⟩
        ⟨none, 1, 2, 0, "\x7b\x22name\x22:\x22A\x22\x7d", none⟩ =
      ["Version 1 -> 2", "No data changes."] :=
  diff_snapshots_identical
    ⟨none, 1, 1, 0, "\x7b\x22name\x22:\x22A\x22\x7d", none⟩
    ⟨none, 1, 2, 0, "\x7b\x22name\x22:\x22A\x22\x7d", none⟩ rfl

/-- C4: when the payloads differ and either fails to parse, `diff_snapshots`
emits the version line and the single parse-failure record and stops; no
field-level record is ever produced alongside it. -/
theorem diff_snapshots_parse_failure (old new : Snapshot) (hne : ¬ old.data = new.data)
    (hp : parseJson old.data = none ∨ parseJson new.data = none) :
    diff_snapshots_lines old new =
      [versionLine old new, "Data format changed (could not parse as JSON)."] := by
  unfold diff_snapshots_lines
  rw [if_neg hne]
  rcases hp with hp | hp
  · rw [hp]
  · rw [hp]
    cases parseJson old.data <;> rfl

/-- Witness for C4: a snapshot whose payload is not JSON. -/
theorem diff_snapshots_parse_failure_witness :
    diff_snapshots_lines
        ⟨none, 1, 1, 0, "not json", none⟩
        ⟨none, 1, 2, 0, "\x7b\x7d", none⟩ =
      ["Version 1 -> 2", "Data format changed (could not parse as JSON)."] :=
  diff_snapshots_parse_failure
    ⟨none, 1, 1, 0, "not json", none⟩
    ⟨none, 1, 2, 0, "\x7b\x7d", none⟩
    (by decide) (Or.inl rfl)

/-- C10: when the payloads differ as byte strings but parse to equal JSON
values, `diff_snapshots` returns exactly two lines: the version transition
followed by the "no structural differences" record, with no Added, Removed or
Changed record. -/
theorem diff_snapshots_no_structural (old new : Snapshot) (hne : ¬ old.data = new.data)
    (v : Json) (ho : parseJson old.data = some v) (hn : parseJson new.data = some v) :
    diff_snapshots_lines old new =
      [versionLine old new, "Data changed but no structural differences detected."] := by
  unfold diff_snapshots_lines
  rw [if_neg hne, ho, hn]
  have hd : diff_json_values ("") v v = [] := by
    unfold diff_json_values
    simp [Json.beq_refl v]
  simp [hd]

/-- Witness for C10: payloads that differ only by leading whitespace. -/
theorem diff_snapshots_no_structural_witness :
    diff_snapshots_lines
        ⟨none, 1, 1, 0, " \x7b\x22name\x22:\x22A\x22\x7d", none⟩
        ⟨none, 1, 2, 0, "\x7b\x22name\x22:\x22A\x22\x7d", none⟩ =
      ["Version 1 -> 2", "Data changed but no structural differences detected."] :=
  diff_snapshots_no_structural
    ⟨none, 1, 1, 0, " \x7b\x22name\x22:\x22A\x22\x7d", none⟩
    ⟨none, 1, 2, 0, "\x7b\x22name\x22:\x22A\x22\x7d", none⟩
    (by decide)
    (Json.obj (JsonFields.cons ("name") (Json.str ("A")) JsonFields.nil))
    rfl rfl

end TOE

namespace TOE

/-- Leaf unit used in concrete scenarios. -/
def sample_leaf : Unit :=
  Unit.mk none ("Alpha Squad") ("squad") none [] [] UnitList.nil

/-- Second leaf unit used in concrete scenarios. -/
def sample_leaf2 : Unit :=
  Unit.mk none ("Bravo Squad") ("squad") none [] [] UnitList.nil

/-- Parent with two leaf children used in concrete scenarios. -/
def sample_parent : Unit :=
  Unit.mk none ("Platoon") ("platoon") none [] []
    (UnitList.cons sample_leaf (UnitList.cons sample_leaf2 UnitList.nil))

/-- The single root of concrete scenario 1: one unit, one member of personnel,
ten rifles, no children. -/
def sample_platoon : Unit :=
  Unit.mk none ("1st Platoon") ("platoon") none
    [⟨"Leader", none⟩] [⟨"Rifle", 10⟩] UnitList.nil

end TOE

namespace TOE

/-- C5: a leaf's subtree width is exactly `BOX_WIDTH`; an internal node's is
`max(BOX_WIDTH, sum of child widths + H_SPACING * (childCount - 1))`; hence
every unit's subtree width is at least `BOX_WIDTH`, and a parent with children
is at least as wide as its children's widths plus gaps. -/
theorem subtree_width_spec (u : Unit) :
    (u.children = UnitList.nil → subtree_width u = BOX_WIDTH) ∧
    (¬ u.children = UnitList.nil →
      subtree_width u =
        max BOX_WIDTH
          (sum_widths u.children + H_SPACING * ((UnitList.length u.children : ℚ) - 1))) ∧
    BOX_WIDTH ≤ subtree_width u ∧
    (¬ u.children = UnitList.nil →
      sum_widths u.children + H_SPACING * ((UnitList.length u.children : ℚ) - 1) ≤
        subtree_width u) := by
  rcases u with ⟨i, n, t, pi, ps, es, children⟩
  cases children with
  | nil =>
    refine ⟨fun _ => rfl, fun h => absurd rfl h, le_refl _, fun h => absurd rfl h⟩
  | cons c cs =>
    have hlen : max ((UnitList.length (UnitList.cons c cs) : ℚ) - 1) 0 =
        (UnitList.length (UnitList.cons c cs) : ℚ) - 1 := by
      apply max_eq_left
      have : (1 : ℚ) ≤ (UnitList.length (UnitList.cons c cs) : ℚ) := by
        have : (1 : ℕ) ≤ UnitList.length (UnitList.cons c cs) := by
          simp [UnitList.length]
        exact_mod_cast this
      linarith
    constructor
    · intro h
      exact absurd h (fun h2 => UnitList.noConfusion h2)
    constructor
    · intro _
      show max (sum_widths (UnitList.cons c cs) +
          H_SPACING * max ((UnitList.length (UnitList.cons c cs) : ℚ) - 1) 0) BOX_WIDTH = _
      rw [hlen, max_comm]
      rfl
    constructor
    · exact le_max_right _ _
    · intro _
      show _ ≤ max (sum_widths (UnitList.cons c cs) +
          H_SPACING * max ((UnitList.length (UnitList.cons c cs) : ℚ) - 1) 0) BOX_WIDTH
      rw [hlen]
      exact le_max_left _ _

/-- Witness for C5: the leaf rule at a childless unit and the internal rule at
a two-child parent. -/
theorem subtree_width_spec_witness :
    subtree_width sample_leaf = BOX_WIDTH ∧
    subtree_width sample_parent =
      max BOX_WIDTH
        (sum_widths sample_parent.children +
          H_SPACING * ((UnitList.length sample_parent.children : ℚ) - 1)) :=
  ⟨(subtree_width_spec sample_leaf).1 rfl,
    (subtree_width_spec sample_parent).2.1 (fun h => UnitList.noConfusion h)⟩

end TOE


namespace TOE

/-- C6: the scenario-1 library (one childless root, 1 personnel,
equipment Rifle:10) lays out as exactly one node at `x = 40`, `y = 70`
(padding 40 plus title offset 30) with sublabel "P:1 E:10"; in general every
node's sublabel is derived from the personnel count and summed equipment
quantity of that unit alone, never from its descendants. -/
theorem layout_single_root_scenario :
    (∀ (u : Unit) (x y aw : ℚ),
      LayoutNode.sublabel (layout_unit u x y aw) =
        "P:" ++ toString u.personnel.length ++ " E:" ++
          toString (u.equipment.map Equipment.quantity).sum) ∧
    root_layouts (UnitList.cons sample_platoon UnitList.nil) PADDING =
      (LayoutNodeList.cons
          (LayoutNode.mk 40 70 ("1st Platoon") ("P:1 E:10") LayoutNodeList.nil)
          LayoutNodeList.nil,
        260) := by
  constructor
  · intro u x y aw
    rcases u with ⟨i, n, t, pi, ps, es, children⟩
    cases children <;> rfl
  · simp only [root_layouts, layout_unit, subtree_width, sample_platoon, unit_sublabel]
    norm_num [PADDING, BOX_WIDTH, H_SPACING]
    rfl

mutual

/-- Maximum nesting depth of a unit tree: the image of `max_depth` on the
layout the unit produces (proved as `max_depth_layout`). -/
def unit_depth : Unit → Nat
  | .mk _ _ _ _ _ _ .nil => 1
  | .mk _ _ _ _ _ _ (.cons c cs) => 1 + unitsMaxDepth (.cons c cs)

/-- Maximum of `unit_depth` over a sequence of units (0 when empty). -/
def unitsMaxDepth : UnitList → Nat
  | .nil => 0
  | .cons u us => max (unit_depth u) (unitsMaxDepth us)

end

theorem max_depth_mk (x y : ℚ) (l s : String) (cs : LayoutNodeList) :
    max_depth (LayoutNode.mk x y l s cs) = 1 + maxDepthList cs := by
  cases cs with
  | nil => simp [max_depth, maxDepthList]
  | cons c cs2 => rfl

end TOE

mutual

theorem TOE.max_depth_layout :
    ∀ (u : TOE.Unit) (x y aw : ℚ),
      TOE.max_depth (TOE.layout_unit u x y aw) = TOE.unit_depth u
  | .mk i n t pi ps es .nil, x, y, aw => rfl
  | .mk i n t pi ps es (.cons c cs), x, y, aw => by
    simp only [TOE.layout_unit, TOE.unit_depth, TOE.max_depth_mk]
    rw [TOE.maxDepthList_layout_children (.cons c cs)]

theorem TOE.maxDepthList_layout_children :
    ∀ (us : TOE.UnitList) (cx cy : ℚ),
      TOE.maxDepthList (TOE.layout_children us cx cy) = TOE.unitsMaxDepth us
  | .nil, _, _ => rfl
  | .cons c cs, cx, cy => by
    simp only [TOE.layout_children, TOE.maxDepthList, TOE.unitsMaxDepth]
    rw [TOE.max_depth_layout c, TOE.maxDepthList_layout_children cs]

end

namespace TOE

theorem maxDepthList_root_layouts :
    ∀ (us : UnitList) (tw : ℚ),
      maxDepthList (root_layouts us tw).1 = unitsMaxDepth us
  | .nil, _ => rfl
  | .cons u us, tw => by
    simp only [root_layouts, maxDepthList, unitsMaxDepth]
    rw [max_depth_layout u, maxDepthList_root_layouts us]

theorem root_layouts_width :
    ∀ (us : UnitList) (tw : ℚ),
      (root_layouts us tw).2 = tw + sum_widths us + (H_SPACING * 2) * (UnitList.length us : ℚ)
  | .nil, _ => by simp [root_layouts, sum_widths, UnitList.length]
  | .cons u us, tw => by
    simp only [root_layouts]
    rw [root_layouts_width us]
    simp only [sum_widths, UnitList.length]
    push_cast
    ring

end TOE

namespace TOE

/-- Library with a single childless root, used as the C7 counterexample input. -/
def sample_lib_leaf : Library :=
  ⟨none, "L", "US", "2003", "A", 1, [], UnitList.cons sample_leaf UnitList.nil⟩

/-- C7 counterexample: the claim says the canvas height is
`padding*2 + max(depth) * (boxHeight + verticalSpacing)`, i.e. `80 + 110 * d`.
For a library with one childless root the layout depth is 1, yet the computed
height is 220, not 190: `export_svg` adds a further 30 for the title row. -/
theorem export_dims_height_counterexample :
    depth_or_one (root_layouts sample_lib_leaf.units PADDING).1 = 1 ∧
    (export_dims sample_lib_leaf).2 = 220 ∧
    ¬ (export_dims sample_lib_leaf).2 =
        PADDING * 2 + ((1 : ℚ)) * (BOX_HEIGHT + V_SPACING) := by
  refine ⟨rfl, ?_, ?_⟩
  · simp only [export_dims, sample_lib_leaf]
    norm_num [PADDING, BOX_HEIGHT, V_SPACING, root_layouts, depth_or_one, maxDepthList,
      max_depth, layout_unit, subtree_width, sample_leaf]
  · simp only [export_dims, sample_lib_leaf]
    norm_num [PADDING, BOX_HEIGHT, V_SPACING, root_layouts, depth_or_one, maxDepthList,
      max_depth, layout_unit, subtree_width, sample_leaf]

/-- C7 (amended): for a non-empty forest the canvas height equals
`padding*2 + 30 + max(depth) * (boxHeight + verticalSpacing)` — the extra 30 is
the title row offset — where the depth is the maximum layout-tree depth over
all roots; the canvas width is the two paddings plus each root's subtree width
plus `2 * horizontalSpacing` per root. -/
theorem export_dims_formula (lib : Library) (h : ¬ lib.units = UnitList.nil) :
    (export_dims lib).1 =
      PADDING * 2 + sum_widths lib.units + (H_SPACING * 2) * (UnitList.length lib.units : ℚ) ∧
    (export_dims lib).2 =
      PADDING * 2 + 30 + (unitsMaxDepth lib.units : ℚ) * (BOX_HEIGHT + V_SPACING) := by
  rcases lib with ⟨i, nm, co, er, au, ver, tg, units⟩
  cases units with
  | nil => exact absurd rfl h
  | cons u us =>
    constructor
    · show (root_layouts (UnitList.cons u us) PADDING).2 + PADDING = _
      rw [root_layouts_width]
      ring
    · show PADDING * 2 + 30 +
          ((depth_or_one (root_layouts (UnitList.cons u us) PADDING).1 : ℚ)) *
            (BOX_HEIGHT + V_SPACING) = _
      have hd : depth_or_one (root_layouts (UnitList.cons u us) PADDING).1 =
          unitsMaxDepth (UnitList.cons u us) := by
        rw [show (root_layouts (UnitList.cons u us) PADDING).1 =
            LayoutNodeList.cons
              (layout_unit u PADDING (PADDING + 30) (subtree_width u))
              (root_layouts us (PADDING + subtree_width u + H_SPACING * 2)).1 from rfl]
        show maxDepthList _ = _
        rw [show LayoutNodeList.cons
            (layout_unit u PADDING (PADDING + 30) (subtree_width u))
            (root_layouts us (PADDING + subtree_width u + H_SPACING * 2)).1 =
            (root_layouts (UnitList.cons u us) PADDING).1 from rfl]
        exact maxDepthList_root_layouts (UnitList.cons u us) PADDING
      rw [hd]

/-- Witness for C7's amended theorem at a concrete two-root library. -/
theorem export_dims_formula_witness :
    (export_dims ⟨none, "W", "US", "2003", "A", 1, [],
        UnitList.cons sample_parent (UnitList.cons sample_leaf UnitList.nil)⟩).1 =
      PADDING * 2 +
        sum_widths (UnitList.cons sample_parent (UnitList.cons sample_leaf UnitList.nil)) +
        (H_SPACING * 2) *
          ((UnitList.length (UnitList.cons sample_parent (UnitList.cons sample_leaf UnitList.nil)) : ℚ)) ∧
    (export_dims ⟨none, "W", "US", "2003", "A", 1, [],
        UnitList.cons sample_parent (UnitList.cons sample_leaf UnitList.nil)⟩).2 =
      PADDING * 2 + 30 +
        ((unitsMaxDepth (UnitList.cons sample_parent (UnitList.cons sample_leaf UnitList.nil)) : ℚ)) *
          (BOX_HEIGHT + V_SPACING) :=
  export_dims_formula
    ⟨none, "W", "US", "2003", "A", 1, [],
      UnitList.cons sample_parent (UnitList.cons sample_leaf UnitList.nil)⟩
    (fun h => UnitList.noConfusion h)

/-- C9: an empty forest still produces the minimal valid canvas: the fixed
400 by 100 document whose only text element carries the library title and the
"(no units)" indicator; the output is never empty. -/
theorem export_svg_empty_forest (lib : Library) (h : lib.units = UnitList.nil) :
    export_svg lib =
      "<?xml version=\x221.0\x22 encoding=\x22UTF-8\x22?>\n<svg xmlns=\x22http://www.w3.org/2000/svg\x22 width=\x22400\x22 height=\x22100\x22>\n  <text x=\x22200\x22 y=\x2250\x22 text-anchor=\x22middle\x22 font-size=\x2216\x22 font-family=\x22sans-serif\x22>" ++
        xml_escape lib.name ++ " (no units)</text>\n</svg>" ∧
    export_dims lib = (400, 100) ∧
    ¬ export_svg lib = "" := by
  rcases lib with ⟨i, nm, co, er, au, ver, tg, units⟩
  cases h
  exact ⟨rfl, rfl, string_head_ne (show ¬ some '<' = none by decide)⟩

/-- Witness for C9 at a concrete empty library. -/
theorem export_svg_empty_forest_witness :
    export_svg ⟨none, "Test", "US", "2003", "A", 1, [], UnitList.nil⟩ =
      "<?xml version=\x221.0\x22 encoding=\x22UTF-8\x22?>\n<svg xmlns=\x22http://www.w3.org/2000/svg\x22 width=\x22400\x22 height=\x22100\x22>\n  <text x=\x22200\x22 y=\x2250\x22 text-anchor=\x22middle\x22 font-size=\x2216\x22 font-family=\x22sans-serif\x22>" ++
        xml_escape ("Test") ++ " (no units)</text>\n</svg>" ∧
    export_dims ⟨none, "Test", "US", "2003", "A", 1, [], UnitList.nil⟩ = (400, 100) :=
  ⟨(export_svg_empty_forest ⟨none, "Test", "US", "2003", "A", 1, [], UnitList.nil⟩ rfl).1,
    (export_svg_empty_forest ⟨none, "Test", "US", "2003", "A", 1, [], UnitList.nil⟩ rfl).2.1⟩

end TOE


namespace TOE

/-- Plain-list image of `diffElems`: pairwise comparison of zipped elements,
indexed from `i`. -/
def diffPairs (path : String) : Nat → List (Json × Json) → List String
  | _, [] => []
  | i, (x, y) :: rest =>
    diff_json_values (path ++ "[" ++ toString i ++ "]") x y ++ diffPairs path (i + 1) rest

theorem diffElems_eq_diffPairs :
    ∀ (oa na : JsonList) (path : String) (i : Nat),
      diffElems path i oa na = diffPairs path i (oa.toList.zip na.toList)
  | .nil, .nil, _, _ => rfl
  | .nil, .cons _ _, _, _ => rfl
  | .cons _ _, .nil, _, _ => rfl
  | .cons x xs, .cons y ys, path, i => by
    show diff_json_values (path ++ "[" ++ toString i ++ "]") x y ++ diffElems path (i + 1) xs ys =
      diffPairs path i ((x :: xs.toList).zip (y :: ys.toList))
    rw [List.zip_cons_cons]
    show _ = diff_json_values (path ++ "[" ++ toString i ++ "]") x y ++
      diffPairs path (i + 1) (xs.toList.zip ys.toList)
    rw [diffElems_eq_diffPairs xs ys]

/-- C2: at a path where both values are arrays (and they differ), the diff is
exactly one `Changed` length record when the lengths differ (none otherwise),
followed by the pairwise comparison of the zipped elements with path suffix
`path[i]` — elements beyond the shorter length can never be reported because
the zip truncates to `min(len_old, len_new)`. Concretely, diffing
`{"units":[1,2]}` against `{"units":[1,2,3]}` yields only the version line and
a `Changed` record at `units` noting length 2 -> 3. -/
theorem diff_arrays_spec :
    (∀ (path : String) (old_arr new_arr : JsonList),
      ¬ Json.beq (Json.arr old_arr) (Json.arr new_arr) = true →
      diff_json_values path (Json.arr old_arr) (Json.arr new_arr) =
        (if JsonList.length old_arr = JsonList.length new_arr then []
         else ["Changed: " ++ path ++ " (array length " ++
                toString (JsonList.length old_arr) ++ " -> " ++
                toString (JsonList.length new_arr) ++ ")"]) ++
          diffPairs path 0 (old_arr.toList.zip new_arr.toList)) ∧
    diff_snapshots_lines
        ⟨none, 1, 1, 0, "\x7b\x22units\x22:[1,2]\x7d", none⟩
        ⟨none, 1, 2, 0, "\x7b\x22units\x22:[1,2,3]\x7d", none⟩ =
      ["Version 1 -> 2", "Changed: units (array length 2 -> 3)"] := by
  constructor
  · intro path old_arr new_arr hne
    unfold diff_json_values
    rw [if_neg hne]
    show (if JsonList.length old_arr = JsonList.length new_arr then []
         else ["Changed: " ++ path ++ " (array length " ++
                toString (JsonList.length old_arr) ++ " -> " ++
                toString (JsonList.length new_arr) ++ ")"]) ++
          diffElems path 0 old_arr new_arr = _
    rw [diffElems_eq_diffPairs]
  · rfl

/-- Witness for C2's general rule at the concrete scenario arrays. -/
theorem diff_arrays_spec_witness :
    diff_json_values ("units")
        (Json.arr (JsonList.cons (Json.num 1) (JsonList.cons (Json.num 2) JsonList.nil)))
        (Json.arr (JsonList.cons (Json.num 1)
          (JsonList.cons (Json.num 2) (JsonList.cons (Json.num 3) JsonList.nil)))) =
      (if JsonList.length
            (JsonList.cons (Json.num 1) (JsonList.cons (Json.num 2) JsonList.nil)) =
          JsonList.length (JsonList.cons (Json.num 1)
            (JsonList.cons (Json.num 2) (JsonList.cons (Json.num 3) JsonList.nil))) then []
       else ["Changed: " ++ "units" ++ " (array length " ++
              toString (JsonList.length
                (JsonList.cons (Json.num 1) (JsonList.cons (Json.num 2) JsonList.nil))) ++
              " -> " ++
              toString (JsonList.length (JsonList.cons (Json.num 1)
                (JsonList.cons (Json.num 2) (JsonList.cons (Json.num 3) JsonList.nil)))) ++
              ")"]) ++
        diffPairs ("units") 0
          ((JsonList.cons (Json.num 1) (JsonList.cons (Json.num 2) JsonList.nil)).toList.zip
            (JsonList.cons (Json.num 1)
              (JsonList.cons (Json.num 2) (JsonList.cons (Json.num 3) JsonList.nil))).toList) :=
  diff_arrays_spec.1 ("units")
    (JsonList.cons (Json.num 1) (JsonList.cons (Json.num 2) JsonList.nil))
    (JsonList.cons (Json.num 1)
      (JsonList.cons (Json.num 2) (JsonList.cons (Json.num 3) JsonList.nil)))
    (by decide)

theorem diffFieldsOld_eq_flatMap :
    ∀ (old_map : JsonFields) (new_map : JsonFields) (path : String),
      diffFieldsOld path old_map new_map =
        old_map.toList.flatMap (fun kv =>
          match JsonFields.lookup new_map kv.1 with
          | some nv => diff_json_values (fieldPath path kv.1) kv.2 nv
          | none => ["Removed: " ++ fieldPath path kv.1])
  | .nil, _, _ => rfl
  | .cons k v tl, new_map, path => by
    simp only [diffFieldsOld, JsonFields.toList, List.flatMap_cons]
    rw [diffFieldsOld_eq_flatMap tl]

theorem diffFieldsNew_eq_filterMap :
    ∀ (new_map : JsonFields) (old_map : JsonFields) (path : String),
      diffFieldsNew path old_map new_map =
        new_map.toList.filterMap (fun kv =>
          if JsonFields.containsKey old_map kv.1 then none
          else some ("Added: " ++ fieldPath path kv.1))
  | .nil, _, _ => rfl
  | .cons k v tl, old_map, path => by
    simp only [diffFieldsNew, JsonFields.toList, List.filterMap_cons]
    rw [diffFieldsNew_eq_filterMap tl]
    by_cases h : JsonFields.containsKey old_map k
    · simp [h]
    · simp [h]

end TOE

namespace TOE

/-- C3: at a path where both values are objects (and they differ), the diff is
the old map's fields in insertion order — a `Removed` record for each key
absent from the new map, a recursive comparison for each shared key — followed
by an `Added` record for each new-map key absent from the old map, in the new
map's insertion order; in particular every removed key is reported `Removed`
at `path.key` and every added key is reported `Added` at `path.key`. -/
theorem diff_objects_spec :
    (∀ (path : String) (old_map new_map : JsonFields),
      ¬ Json.beq (Json.obj old_map) (Json.obj new_map) = true →
      diff_json_values path (Json.obj old_map) (Json.obj new_map) =
        old_map.toList.flatMap (fun kv =>
          match JsonFields.lookup new_map kv.1 with
          | some nv => diff_json_values (fieldPath path kv.1) kv.2 nv
          | none => ["Removed: " ++ fieldPath path kv.1]) ++
        new_map.toList.filterMap (fun kv =>
          if JsonFields.containsKey old_map kv.1 then none
          else some ("Added: " ++ fieldPath path kv.1))) ∧
    (∀ (path : String) (old_map new_map : JsonFields) (k : String) (v : Json),
      ¬ Json.beq (Json.obj old_map) (Json.obj new_map) = true →
      (k, v) ∈ old_map.toList → JsonFields.lookup new_map k = none →
      ("Removed: " ++ fieldPath path k) ∈
        diff_json_values path (Json.obj old_map) (Json.obj new_map)) ∧
    (∀ (path : String) (old_map new_map : JsonFields) (k : String) (v : Json),
      ¬ Json.beq (Json.obj old_map) (Json.obj new_map) = true →
      (k, v) ∈ new_map.toList → JsonFields.containsKey old_map k = false →
      ("Added: " ++ fieldPath path k) ∈
        diff_json_values path (Json.obj old_map) (Json.obj new_map)) := by
  have hmain : ∀ (path : String) (old_map new_map : JsonFields),
      ¬ Json.beq (Json.obj old_map) (Json.obj new_map) = true →
      diff_json_values path (Json.obj old_map) (Json.obj new_map) =
        old_map.toList.flatMap (fun kv =>
          match JsonFields.lookup new_map kv.1 with
          | some nv => diff_json_values (fieldPath path kv.1) kv.2 nv
          | none => ["Removed: " ++ fieldPath path kv.1]) ++
        new_map.toList.filterMap (fun kv =>
          if JsonFields.containsKey old_map kv.1 then none
          else some ("Added: " ++ fieldPath path kv.1)) := by
    intro path om nm hne
    rw [show diff_json_values path (Json.obj om) (Json.obj nm) =
        diffFieldsOld path om nm ++ diffFieldsNew path om nm from by
      unfold diff_json_values
      rw [if_neg hne]]
    rw [diffFieldsOld_eq_flatMap, diffFieldsNew_eq_filterMap]
  refine ⟨hmain, ?_, ?_⟩
  · intro path om nm k v hne hmem hlook
    rw [hmain path om nm hne]
    apply List.mem_append_left
    rw [List.mem_flatMap]
    exact ⟨(k, v), hmem, by simp [hlook]⟩
  · intro path om nm k v hne hmem hcont
    rw [hmain path om nm hne]
    apply List.mem_append_right
    rw [List.mem_filterMap]
    exact ⟨(k, v), hmem, by simp [hcont]⟩

/-- Witness for C3 at concrete objects: key `era` removed, key `country`
added, key `name` shared. -/
theorem diff_objects_spec_witness :
    ("Removed: " ++ fieldPath ("") ("era")) ∈
      diff_json_values ("")
        (Json.obj (JsonFields.cons ("name") (Json.str ("A"))
          (JsonFields.cons ("era") (Json.str ("2020")) JsonFields.nil)))
        (Json.obj (JsonFields.cons ("name") (Json.str ("A"))
          (JsonFields.cons ("country") (Json.str ("US")) JsonFields.nil))) ∧
    ("Added: " ++ fieldPath ("") ("country")) ∈
      diff_json_values ("")
        (Json.obj (JsonFields.cons ("name") (Json.str ("A"))
          (JsonFields.cons ("era") (Json.str ("2020")) JsonFields.nil)))
        (Json.obj (JsonFields.cons ("name") (Json.str ("A"))
          (JsonFields.cons ("country") (Json.str ("US")) JsonFields.nil))) :=
  ⟨diff_objects_spec.2.1 ("")
      (JsonFields.cons ("name") (Json.str ("A"))
        (JsonFields.cons ("era") (Json.str ("2020")) JsonFields.nil))
      (JsonFields.cons ("name") (Json.str ("A"))
        (JsonFields.cons ("country") (Json.str ("US")) JsonFields.nil))
      ("era") (Json.str ("2020"))
      (by decide) (by simp [JsonFields.toList]) rfl,
    diff_objects_spec.2.2 ("")
      (JsonFields.cons ("name") (Json.str ("A"))
        (JsonFields.cons ("era") (Json.str ("2020")) JsonFields.nil))
      (JsonFields.cons ("name") (Json.str ("A"))
        (JsonFields.cons ("country") (Json.str ("US")) JsonFields.nil))
      ("country") (Json.str ("US"))
      (by decide) (by simp [JsonFields.toList]) rfl⟩

end TOE

namespace TOE

theorem containsKey_iff_lookup_none (fs : JsonFields) (k : String) :
    JsonFields.containsKey fs k = false ↔ JsonFields.lookup fs k = none := by
  unfold JsonFields.containsKey
  cases JsonFields.lookup fs k <;> simp

theorem mem_of_lookup_eq_some :
    ∀ (fs : JsonFields) (k : String) (v : Json),
      JsonFields.lookup fs k = some v → (k, v) ∈ fs.toList
  | .nil, _, _, h => by simp [JsonFields.lookup] at h
  | .cons k' v' tl, k, v, h => by
    rw [JsonFields.toList]
    by_cases hk : k' = k
    · rw [JsonFields.lookup, if_pos hk] at h
      cases h
      cases hk
      exact List.mem_cons_self _ _
    · rw [JsonFields.lookup, if_neg hk] at h
      exact List.mem_cons_of_mem _ (mem_of_lookup_eq_some tl k v h)

theorem wf_fields_parts {k : String} {v : Json} {tl : JsonFields}
    (h : JsonFields.wf (JsonFields.cons k v tl) = true) :
    JsonFields.containsKey tl k = false ∧ Json.wf v = true ∧ JsonFields.wf tl = true := by
  rw [JsonFields.wf] at h
  simp only [Bool.and_eq_true, Bool.not_eq_true'] at h
  exact ⟨h.1.1, h.1.2, h.2⟩

theorem lookup_eq_some_of_mem :
    ∀ (fs : JsonFields), JsonFields.wf fs = true →
      ∀ (k : String) (v : Json), (k, v) ∈ fs.toList → JsonFields.lookup fs k = some v
  | .nil, _, k, v, h => by simp [JsonFields.toList] at h
  | .cons k' v' tl, hwf, k, v, h => by
    obtain ⟨hnk, hwv, hwtl⟩ := wf_fields_parts hwf
    rw [JsonFields.toList] at h
    rcases List.mem_cons.mp h with heq | hmem
    · obtain ⟨hk, hv⟩ := Prod.mk.injEq .. ▸ heq
      cases hk
      cases hv
      rw [JsonFields.lookup, if_pos rfl]
    · have hl := lookup_eq_some_of_mem tl hwtl k v hmem
      by_cases hk : k' = k
      · cases hk
        rw [show JsonFields.containsKey tl k' = (JsonFields.lookup tl k').isSome from rfl,
          hl] at hnk
        simp at hnk
      · rw [JsonFields.lookup, if_neg hk]
        exact hl

theorem wf_of_mem :
    ∀ (fs : JsonFields), JsonFields.wf fs = true →
      ∀ (k : String) (v : Json), (k, v) ∈ fs.toList → Json.wf v = true
  | .nil, _, k, v, h => by simp [JsonFields.toList] at h
  | .cons k' v' tl, hwf, k, v, h => by
    obtain ⟨hnk, hwv, hwtl⟩ := wf_fields_parts hwf
    rw [JsonFields.toList] at h
    rcases List.mem_cons.mp h with heq | hmem
    · obtain ⟨hk, hv⟩ := Prod.mk.injEq .. ▸ heq
      cases hv
      exact hwv
    · exact wf_of_mem tl hwtl k v hmem

theorem wf_of_lookup (fs : JsonFields) (hwf : JsonFields.wf fs = true)
    (k : String) (v : Json) (h : JsonFields.lookup fs k = some v) : Json.wf v = true :=
  wf_of_mem fs hwf k v (mem_of_lookup_eq_some fs k v h)

theorem lookup_removeKey :
    ∀ (fs : JsonFields) (k k' : String),
      JsonFields.lookup (JsonFields.removeKey fs k) k' =
        if k' = k then none else JsonFields.lookup fs k'
  | .nil, k, k' => by
    by_cases h : k' = k <;> simp [JsonFields.removeKey, JsonFields.lookup, h]
  | .cons kk v tl, k, k' => by
    rw [JsonFields.removeKey]
    by_cases hkk : kk = k
    · rw [if_pos hkk, lookup_removeKey tl]
      by_cases hk : k' = k
      · rw [if_pos hk, if_pos hk]
      · rw [if_neg hk, if_neg hk, JsonFields.lookup,
          if_neg (fun h => hk (by rw [← h, hkk]))]
    · rw [if_neg hkk, JsonFields.lookup]
      by_cases hkc : kk = k'
      · rw [if_pos hkc]
        have hk : ¬ k' = k := fun h => hkk (by rw [hkc, h])
        rw [if_neg hk, JsonFields.lookup, if_pos hkc]
      · rw [if_neg hkc, lookup_removeKey tl]
        by_cases hk : k' = k
        · rw [if_pos hk, if_pos hk]
        · rw [if_neg hk, if_neg hk, JsonFields.lookup, if_neg hkc]

theorem wf_removeKey :
    ∀ (fs : JsonFields) (k : String), JsonFields.wf fs = true →
      JsonFields.wf (JsonFields.removeKey fs k) = true
  | .nil, _, _ => rfl
  | .cons kk v tl, k, hwf => by
    obtain ⟨hnk, hwv, hwtl⟩ := wf_fields_parts hwf
    rw [JsonFields.removeKey]
    by_cases hkk : kk = k
    · rw [if_pos hkk]
      exact wf_removeKey tl k hwtl
    · rw [if_neg hkk, JsonFields.wf]
      have hck : JsonFields.containsKey (JsonFields.removeKey tl k) kk = false := by
        rw [show JsonFields.containsKey (JsonFields.removeKey tl k) kk =
            (JsonFields.lookup (JsonFields.removeKey tl k) kk).isSome from rfl,
          lookup_removeKey tl k kk, if_neg hkk,
          show (JsonFields.lookup tl kk).isSome = JsonFields.containsKey tl kk from rfl, hnk]
      rw [hck, hwv, wf_removeKey tl k hwtl]
      rfl

theorem wf_insertField (k : String) (v : Json) (fs : JsonFields)
    (hv : Json.wf v = true) (hfs : JsonFields.wf fs = true) :
    JsonFields.wf (insertField k v fs) = true := by
  unfold insertField
  cases hl : JsonFields.lookup fs k with
  | none =>
    rw [JsonFields.wf,
      show JsonFields.containsKey fs k = (JsonFields.lookup fs k).isSome from rfl, hl, hv, hfs]
    rfl
  | some w =>
    rw [JsonFields.wf]
    have h1 : JsonFields.containsKey (JsonFields.removeKey fs k) k = false := by
      rw [show JsonFields.containsKey (JsonFields.removeKey fs k) k =
          (JsonFields.lookup (JsonFields.removeKey fs k) k).isSome from rfl,
        lookup_removeKey fs k k, if_pos rfl]
      rfl
    rw [h1, wf_of_lookup fs hfs k w hl, wf_removeKey fs k hfs]
    rfl

end TOE

namespace TOE

theorem parse_wf_fuel : ∀ (fuel : Nat),
    (∀ cs v r, parseVal fuel cs = some (v, r) → Json.wf v = true) ∧
    (∀ cs xs r, parseElems fuel cs = some (xs, r) → JsonList.wf xs = true) ∧
    (∀ cs fs r, parseFields fuel cs = some (fs, r) → JsonFields.wf fs = true) := by
  intro fuel
  induction fuel with
  | zero =>
    refine ⟨fun cs v r h => ?_, fun cs xs r h => ?_, fun cs fs r h => ?_⟩ <;>
      simp [parseVal, parseElems, parseFields] at h
  | succ n ih =>
    obtain ⟨ihv, ihe, ihf⟩ := ih
    refine ⟨fun cs v r h => ?_, fun cs xs r h => ?_, fun cs fs r h => ?_⟩
    · rw [parseVal] at h
      repeat' split at h
      all_goals cases h
      all_goals first
        | rfl
        | exact ihe _ _ _ (by assumption)
        | exact ihf _ _ _ (by assumption)
    · rw [parseElems] at h
      repeat' split at h
      all_goals cases h
      all_goals simp only [JsonList.wf]
      all_goals rw [ihv _ _ _ (by assumption)]
      all_goals first
        | rfl
        | (rw [ihe _ _ _ (by assumption)]; rfl)
    · rw [parseFields] at h
      repeat' split at h
      all_goals cases h
      all_goals first
        | (simp only [JsonFields.wf]; rw [ihv _ _ _ (by assumption)]; rfl)
        | exact wf_insertField _ _ _ (ihv _ _ _ (by assumption)) (ihf _ _ _ (by assumption))

/-- Every value produced by `parseJson` is well-formed: object keys are unique
at every level, as serde_json maps guarantee. -/
theorem parse_wf (s : String) (v : Json) (h : parseJson s = some v) : Json.wf v = true := by
  unfold parseJson at h
  cases hp : parseVal (2 * s.data.length + 2) s.data with
  | none => rw [hp] at h; exact absurd h (by simp)
  | some pr =>
    rw [hp] at h
    rcases pr with ⟨v', r⟩
    change (if skipWs r = [] then some v' else none) = some v at h
    by_cases hw : skipWs r = []
    · rw [if_pos hw] at h
      cases h
      exact (parse_wf_fuel _).1 s.data _ _ hp
    · rw [if_neg hw] at h
      exact absurd h (by simp)

end TOE

namespace TOE

theorem added_notin_changedHead (p t : String) (ht : t.data.head? = some 'C') :
    ¬ ("Added: " ++ p) ∈ [t] := by
  intro h
  rw [List.mem_singleton] at h
  rw [← h] at ht
  have h2 : (some 'A' : Option Char) = some 'C' := ht
  exact absurd h2 (by decide)

theorem removed_notin_changedHead (p t : String) (ht : t.data.head? = some 'C') :
    ¬ ("Removed: " ++ p) ∈ [t] := by
  intro h
  rw [List.mem_singleton] at h
  rw [← h] at ht
  have h2 : (some 'R' : Option Char) = some 'C' := ht
  exact absurd h2 (by decide)

theorem diff_nil_of_beq (path : String) (a b : Json) (h : Json.beq a b = true) :
    diff_json_values path a b = [] := by
  unfold diff_json_values
  rw [h]
  rfl

theorem diff_obj_eq (path : String) (om nm : JsonFields)
    (h : ¬ Json.beq (Json.obj om) (Json.obj nm) = true) :
    diff_json_values path (Json.obj om) (Json.obj nm) =
      diffFieldsOld path om nm ++ diffFieldsNew path om nm := by
  unfold diff_json_values
  rw [if_neg h]

theorem diff_arr_eq (path : String) (oa na : JsonList)
    (h : ¬ Json.beq (Json.arr oa) (Json.arr na) = true) :
    diff_json_values path (Json.arr oa) (Json.arr na) =
      (if JsonList.length oa = JsonList.length na then []
       else ["Changed: " ++ path ++ " (array length " ++
              toString (JsonList.length oa) ++ " -> " ++
              toString (JsonList.length na) ++ ")"]) ++
        diffElems path 0 oa na := by
  unfold diff_json_values
  rw [if_neg h]

/-- Shapes of value pairs that fall to the catch-all `Changed` branch of
`diff_json_values`. -/
def notStructuredPair : Json → Json → Prop
  | .obj _, .obj _ => False
  | .arr _, .arr _ => False
  | _, _ => True

theorem diff_default_eq (path : String) (old new : Json)
    (h : ¬ Json.beq old new = true) (hs : notStructuredPair old new) :
    diff_json_values path old new =
      ["Changed: " ++ path ++ " (" ++ Json.render old ++ " -> " ++
        Json.render new ++ ")"] := by
  unfold diff_json_values
  rw [if_neg h]
  cases old <;> cases new <;> first | rfl | exact hs.elim

theorem added_notin_lenPart (p path : String) (a b : Nat) :
    ¬ ("Added: " ++ p) ∈
      (if a = b then ([] : List String)
       else ["Changed: " ++ path ++ " (array length " ++ toString a ++ " -> " ++
              toString b ++ ")"]) := by
  by_cases h : a = b
  · rw [if_pos h]
    simp
  · rw [if_neg h]
    exact added_notin_changedHead p _ rfl

theorem removed_notin_lenPart (p path : String) (a b : Nat) :
    ¬ ("Removed: " ++ p) ∈
      (if a = b then ([] : List String)
       else ["Changed: " ++ path ++ " (array length " ++ toString a ++ " -> " ++
              toString b ++ ")"]) := by
  by_cases h : a = b
  · rw [if_pos h]
    simp
  · rw [if_neg h]
    exact removed_notin_changedHead p _ rfl

theorem added_mem_diffFieldsOld_iff :
    ∀ (om : JsonFields) (nm : JsonFields) (path p : String),
      (("Added: " ++ p) ∈ diffFieldsOld path om nm ↔
        ∃ k v nv, (k, v) ∈ om.toList ∧ JsonFields.lookup nm k = some nv ∧
          ("Added: " ++ p) ∈ diff_json_values (fieldPath path k) v nv)
  | .nil, nm, path, p => by
    simp [diffFieldsOld, JsonFields.toList]
  | .cons k v tl, nm, path, p => by
    rw [diffFieldsOld]
    cases hl : JsonFields.lookup nm k with
    | some nv =>
      rw [List.mem_append, added_mem_diffFieldsOld_iff tl nm path p]
      constructor
      · rintro (hm | ⟨k', v', nv', hmem, hlk, hmm⟩)
        · exact ⟨k, v, nv, by simp [JsonFields.toList], hl, hm⟩
        · exact ⟨k', v', nv', by simp [JsonFields.toList, hmem], hlk, hmm⟩
      · rintro ⟨k', v', nv', hmem, hlk, hmm⟩
        rw [JsonFields.toList, List.mem_cons] at hmem
        rcases hmem with heq | hmem
        · obtain ⟨hk, hv⟩ := Prod.mk.injEq .. ▸ heq
          cases hk
          cases hv
          rw [hl] at hlk
          cases hlk
          exact Or.inl hmm
        · exact Or.inr ⟨k', v', nv', hmem, hlk, hmm⟩
    | none =>
      rw [List.mem_append, added_mem_diffFieldsOld_iff tl nm path p]
      constructor
      · rintro (hm | ⟨k', v', nv', hmem, hlk, hmm⟩)
        · rw [List.mem_singleton] at hm
          exact absurd hm (added_ne_removed _ _)
        · exact ⟨k', v', nv', by simp [JsonFields.toList, hmem], hlk, hmm⟩
      · rintro ⟨k', v', nv', hmem, hlk, hmm⟩
        rw [JsonFields.toList, List.mem_cons] at hmem
        rcases hmem with heq | hmem
        · obtain ⟨hk, hv⟩ := Prod.mk.injEq .. ▸ heq
          cases hk
          rw [hl] at hlk
          cases hlk
        · exact Or.inr ⟨k', v', nv', hmem, hlk, hmm⟩

theorem removed_mem_diffFieldsOld_iff :
    ∀ (om : JsonFields) (nm : JsonFields) (path p : String),
      (("Removed: " ++ p) ∈ diffFieldsOld path om nm ↔
        (∃ k v, (k, v) ∈ om.toList ∧ JsonFields.lookup nm k = none ∧
          p = fieldPath path k) ∨
        (∃ k v nv, (k, v) ∈ om.toList ∧ JsonFields.lookup nm k = some nv ∧
          ("Removed: " ++ p) ∈ diff_json_values (fieldPath path k) v nv))
  | .nil, nm, path, p => by
    simp [diffFieldsOld, JsonFields.toList]
  | .cons k v tl, nm, path, p => by
    rw [diffFieldsOld]
    cases hl : JsonFields.lookup nm k with
    | some nv =>
      rw [List.mem_append, removed_mem_diffFieldsOld_iff tl nm path p]
      constructor
      · rintro (hm | (⟨k', v', hmem, hlk, hp⟩ | ⟨k', v', nv', hmem, hlk, hmm⟩))
        · exact Or.inr ⟨k, v, nv, by simp [JsonFields.toList], hl, hm⟩
        · exact Or.inl ⟨k', v', by simp [JsonFields.toList, hmem], hlk, hp⟩
        · exact Or.inr ⟨k', v', nv', by simp [JsonFields.toList, hmem], hlk, hmm⟩
      · rintro (⟨k', v', hmem, hlk, hp⟩ | ⟨k', v', nv', hmem, hlk, hmm⟩)
        · rw [JsonFields.toList, List.mem_cons] at hmem
          rcases hmem with heq | hmem
          · obtain ⟨hk, hv⟩ := Prod.mk.injEq .. ▸ heq
            cases hk
            rw [hl] at hlk
            cases hlk
          · exact Or.inr (Or.inl ⟨k', v', hmem, hlk, hp⟩)
        · rw [JsonFields.toList, List.mem_cons] at hmem
          rcases hmem with heq | hmem
          · obtain ⟨hk, hv⟩ := Prod.mk.injEq .. ▸ heq
            cases hk
            cases hv
            rw [hl] at hlk
            cases hlk
            exact Or.inl hmm
          · exact Or.inr (Or.inr ⟨k', v', nv', hmem, hlk, hmm⟩)
    | none =>
      rw [List.mem_append, removed_mem_diffFieldsOld_iff tl nm path p]
      constructor
      · rintro (hm | (⟨k', v', hmem, hlk, hp⟩ | ⟨k', v', nv', hmem, hlk, hmm⟩))
        · rw [List.mem_singleton] at hm
          exact Or.inl ⟨k, v, by simp [JsonFields.toList], hl, removed_inj hm⟩
        · exact Or.inl ⟨k', v', by simp [JsonFields.toList, hmem], hlk, hp⟩
        · exact Or.inr ⟨k', v', nv', by simp [JsonFields.toList, hmem], hlk, hmm⟩
      · rintro (⟨k', v', hmem, hlk, hp⟩ | ⟨k', v', nv', hmem, hlk, hmm⟩)
        · rw [JsonFields.toList, List.mem_cons] at hmem
          rcases hmem with heq | hmem
          · obtain ⟨hk, hv⟩ := Prod.mk.injEq .. ▸ heq
            cases hk
            rw [List.mem_singleton, hp]
            exact Or.inl rfl
          · exact Or.inr (Or.inl ⟨k', v', hmem, hlk, hp⟩)
        · rw [JsonFields.toList, List.mem_cons] at hmem
          rcases hmem with heq | hmem
          · obtain ⟨hk, hv⟩ := Prod.mk.injEq .. ▸ heq
            cases hk
            rw [hl] at hlk
            cases hlk
          · exact Or.inr (Or.inr ⟨k', v', nv', hmem, hlk, hmm⟩)

theorem added_mem_diffFieldsNew_iff :
    ∀ (nm : JsonFields) (om : JsonFields) (path p : String),
      (("Added: " ++ p) ∈ diffFieldsNew path om nm ↔
        ∃ k v, (k, v) ∈ nm.toList ∧ JsonFields.containsKey om k = false ∧
          p = fieldPath path k)
  | .nil, om, path, p => by
    simp [diffFieldsNew, JsonFields.toList]
  | .cons k v tl, om, path, p => by
    rw [diffFieldsNew]
    rw [List.mem_append, added_mem_diffFieldsNew_iff tl om path p]
    by_cases hc : JsonFields.containsKey om k
    · rw [if_pos hc]
      constructor
      · rintro (hm | ⟨k', v', hmem, hck, hp⟩)
        · simp at hm
        · exact ⟨k', v', by simp [JsonFields.toList, hmem], hck, hp⟩
      · rintro ⟨k', v', hmem, hck, hp⟩
        rw [JsonFields.toList, List.mem_cons] at hmem
        rcases hmem with heq | hmem
        · obtain ⟨hk, hv⟩ := Prod.mk.injEq .. ▸ heq
          cases hk
          rw [hc] at hck
          cases hck
        · exact Or.inr ⟨k', v', hmem, hck, hp⟩
    · rw [if_neg hc]
      rw [Bool.not_eq_true] at hc
      constructor
      · rintro (hm | ⟨k', v', hmem, hck, hp⟩)
        · rw [List.mem_singleton] at hm
          exact ⟨k, v, by simp [JsonFields.toList], hc, added_inj hm⟩
        · exact ⟨k', v', by simp [JsonFields.toList, hmem], hck, hp⟩
      · rintro ⟨k', v', hmem, hck, hp⟩
        rw [JsonFields.toList, List.mem_cons] at hmem
        rcases hmem with heq | hmem
        · obtain ⟨hk, hv⟩ := Prod.mk.injEq .. ▸ heq
          cases hk
          rw [List.mem_singleton, hp]
          exact Or.inl rfl
        · exact Or.inr ⟨k', v', hmem, hck, hp⟩

theorem removed_notin_diffFieldsNew :
    ∀ (nm : JsonFields) (om : JsonFields) (path p : String),
      ¬ ("Removed: " ++ p) ∈ diffFieldsNew path om nm
  | .nil, om, path, p => by simp [diffFieldsNew]
  | .cons k v tl, om, path, p => by
    rw [diffFieldsNew]
    intro h
    rw [List.mem_append] at h
    rcases h with h | h
    · by_cases hc : JsonFields.containsKey om k
      · rw [if_pos hc] at h
        simp at h
      · rw [if_neg hc] at h
        rw [List.mem_singleton] at h
        exact absurd h.symm (added_ne_removed _ _)
    · exact removed_notin_diffFieldsNew tl om path p h

end TOE

mutual

/-- Mirror property of the recursive diff: on well-formed values, an `Added`
record appears at `p` in `diff_json_values path old new` exactly when a
`Removed` record appears at `p` in `diff_json_values path new old`. -/
theorem TOE.Json.mirror :
    ∀ (old : TOE.Json), TOE.Json.wf old = true →
      ∀ (new : TOE.Json) (path p : String), TOE.Json.wf new = true →
        ((("Added: " ++ p) ∈ TOE.diff_json_values path old new) ↔
          (("Removed: " ++ p) ∈ TOE.diff_json_values path new old))
  | .null, _, new, path, p, _ => by
    by_cases hbeq : TOE.Json.beq .null new = true
    · rw [TOE.diff_nil_of_beq _ _ _ hbeq,
        TOE.diff_nil_of_beq _ _ _ (by rw [TOE.Json.beq_symm]; exact hbeq)]
      simp
    · have hbeq2 : ¬ TOE.Json.beq new .null = true :=
        fun h2 => hbeq (by rw [TOE.Json.beq_symm]; exact h2)
      cases new <;>
        first
          | exact absurd rfl hbeq
          | (rw [TOE.diff_default_eq _ _ _ hbeq trivial,
              TOE.diff_default_eq _ _ _ hbeq2 trivial]
             exact ⟨fun h => absurd h (TOE.added_notin_changedHead p _ rfl),
               fun h => absurd h (TOE.removed_notin_changedHead p _ rfl)⟩)
  | .bool a, _, new, path, p, _ => by
    by_cases hbeq : TOE.Json.beq (.bool a) new = true
    · rw [TOE.diff_nil_of_beq _ _ _ hbeq,
        TOE.diff_nil_of_beq _ _ _ (by rw [TOE.Json.beq_symm]; exact hbeq)]
      simp
    · have hbeq2 : ¬ TOE.Json.beq new (.bool a) = true :=
        fun h2 => hbeq (by rw [TOE.Json.beq_symm]; exact h2)
      cases new <;>
        (rw [TOE.diff_default_eq _ _ _ hbeq trivial,
          TOE.diff_default_eq _ _ _ hbeq2 trivial]
         exact ⟨fun h => absurd h (TOE.added_notin_changedHead p _ rfl),
           fun h => absurd h (TOE.removed_notin_changedHead p _ rfl)⟩)
  | .num a, _, new, path, p, _ => by
    by_cases hbeq : TOE.Json.beq (.num a) new = true
    · rw [TOE.diff_nil_of_beq _ _ _ hbeq,
        TOE.diff_nil_of_beq _ _ _ (by rw [TOE.Json.beq_symm]; exact hbeq)]
      simp
    · have hbeq2 : ¬ TOE.Json.beq new (.num a) = true :=
        fun h2 => hbeq (by rw [TOE.Json.beq_symm]; exact h2)
      cases new <;>
        (rw [TOE.diff_default_eq _ _ _ hbeq trivial,
          TOE.diff_default_eq _ _ _ hbeq2 trivial]
         exact ⟨fun h => absurd h (TOE.added_notin_changedHead p _ rfl),
           fun h => absurd h (TOE.removed_notin_changedHead p _ rfl)⟩)
  | .str a, _, new, path, p, _ => by
    by_cases hbeq : TOE.Json.beq (.str a) new = true
    · rw [TOE.diff_nil_of_beq _ _ _ hbeq,
        TOE.diff_nil_of_beq _ _ _ (by rw [TOE.Json.beq_symm]; exact hbeq)]
      simp
    · have hbeq2 : ¬ TOE.Json.beq new (.str a) = true :=
        fun h2 => hbeq (by rw [TOE.Json.beq_symm]; exact h2)
      cases new <;>
        (rw [TOE.diff_default_eq _ _ _ hbeq trivial,
          TOE.diff_default_eq _ _ _ hbeq2 trivial]
         exact ⟨fun h => absurd h (TOE.added_notin_changedHead p _ rfl),
           fun h => absurd h (TOE.removed_notin_changedHead p _ rfl)⟩)
  | .arr oa, hwf, new, path, p, hwfn => by
    by_cases hbeq : TOE.Json.beq (.arr oa) new = true
    · rw [TOE.diff_nil_of_beq _ _ _ hbeq,
        TOE.diff_nil_of_beq _ _ _ (by rw [TOE.Json.beq_symm]; exact hbeq)]
      simp
    · have hbeq2 : ¬ TOE.Json.beq new (.arr oa) = true :=
        fun h2 => hbeq (by rw [TOE.Json.beq_symm]; exact h2)
      cases new with
      | arr na =>
        rw [TOE.diff_arr_eq path oa na hbeq, TOE.diff_arr_eq path na oa hbeq2]
        rw [List.mem_append, List.mem_append]
        have h3 := TOE.JsonList.mirrorElems oa hwf na path 0 p hwfn
        constructor
        · rintro (h | h)
          · exact absurd h (TOE.added_notin_lenPart p path _ _)
          · exact Or.inr (h3.mp h)
        · rintro (h | h)
          · exact absurd h (TOE.removed_notin_lenPart p path _ _)
          · exact Or.inr (h3.mpr h)
      | null =>
        rw [TOE.diff_default_eq _ _ _ hbeq trivial,
          TOE.diff_default_eq _ _ _ hbeq2 trivial]
        exact ⟨fun h => absurd h (TOE.added_notin_changedHead p _ rfl),
          fun h => absurd h (TOE.removed_notin_changedHead p _ rfl)⟩
      | bool b =>
        rw [TOE.diff_default_eq _ _ _ hbeq trivial,
          TOE.diff_default_eq _ _ _ hbeq2 trivial]
        exact ⟨fun h => absurd h (TOE.added_notin_changedHead p _ rfl),
          fun h => absurd h (TOE.removed_notin_changedHead p _ rfl)⟩
      | num b =>
        rw [TOE.diff_default_eq _ _ _ hbeq trivial,
          TOE.diff_default_eq _ _ _ hbeq2 trivial]
        exact ⟨fun h => absurd h (TOE.added_notin_changedHead p _ rfl),
          fun h => absurd h (TOE.removed_notin_changedHead p _ rfl)⟩
      | str b =>
        rw [TOE.diff_default_eq _ _ _ hbeq trivial,
          TOE.diff_default_eq _ _ _ hbeq2 trivial]
        exact ⟨fun h => absurd h (TOE.added_notin_changedHead p _ rfl),
          fun h => absurd h (TOE.removed_notin_changedHead p _ rfl)⟩
      | obj nm =>
        rw [TOE.diff_default_eq _ _ _ hbeq trivial,
          TOE.diff_default_eq _ _ _ hbeq2 trivial]
        exact ⟨fun h => absurd h (TOE.added_notin_changedHead p _ rfl),
          fun h => absurd h (TOE.removed_notin_changedHead p _ rfl)⟩
  | .obj om, hwf, new, path, p, hwfn => by
    by_cases hbeq : TOE.Json.beq (.obj om) new = true
    · rw [TOE.diff_nil_of_beq _ _ _ hbeq,
        TOE.diff_nil_of_beq _ _ _ (by rw [TOE.Json.beq_symm]; exact hbeq)]
      simp
    · have hbeq2 : ¬ TOE.Json.beq new (.obj om) = true :=
        fun h2 => hbeq (by rw [TOE.Json.beq_symm]; exact h2)
      cases new with
      | obj nm =>
        have hwfom : TOE.JsonFields.wf om = true := hwf
        have hwfnm : TOE.JsonFields.wf nm = true := hwfn
        rw [TOE.diff_obj_eq path om nm hbeq, TOE.diff_obj_eq path nm om hbeq2]
        rw [List.mem_append, List.mem_append]
        rw [TOE.added_mem_diffFieldsOld_iff om nm path p,
          TOE.added_mem_diffFieldsNew_iff nm om path p,
          TOE.removed_mem_diffFieldsOld_iff nm om path p]
        constructor
        · rintro (⟨k, v, nv, hmem, hlk, hmm⟩ | ⟨k, v, hmem, hck, hp⟩)
          · refine Or.inl (Or.inr ⟨k, nv, v, TOE.mem_of_lookup_eq_some nm k nv hlk,
              TOE.lookup_eq_some_of_mem om hwfom k v hmem, ?_⟩)
            have hwnv : TOE.Json.wf nv = true := TOE.wf_of_lookup nm hwfnm k nv hlk
            exact (TOE.JsonFields.mirrorFields om hwfom k v hmem nv (TOE.fieldPath path k) p hwnv).mp hmm
          · exact Or.inl (Or.inl ⟨k, v, hmem,
              (TOE.containsKey_iff_lookup_none om k).mp hck, hp⟩)
        · rintro ((⟨k, v, hmem, hlk, hp⟩ | ⟨k, w, v, hmem, hlk, hmm⟩) | h)
          · exact Or.inr ⟨k, v, hmem,
              (TOE.containsKey_iff_lookup_none om k).mpr hlk, hp⟩
          · refine Or.inl ⟨k, v, w, TOE.mem_of_lookup_eq_some om k v hlk,
              TOE.lookup_eq_some_of_mem nm hwfnm k w hmem, ?_⟩
            have hww : TOE.Json.wf w = true := TOE.wf_of_mem nm hwfnm k w hmem
            exact (TOE.JsonFields.mirrorFields om hwfom k v
              (TOE.mem_of_lookup_eq_some om k v hlk) w (TOE.fieldPath path k) p hww).mpr hmm
          · exact absurd h (TOE.removed_notin_diffFieldsNew om nm path p)
      | null =>
        rw [TOE.diff_default_eq _ _ _ hbeq trivial,
          TOE.diff_default_eq _ _ _ hbeq2 trivial]
        exact ⟨fun h => absurd h (TOE.added_notin_changedHead p _ rfl),
          fun h => absurd h (TOE.removed_notin_changedHead p _ rfl)⟩
      | bool b =>
        rw [TOE.diff_default_eq _ _ _ hbeq trivial,
          TOE.diff_default_eq _ _ _ hbeq2 trivial]
        exact ⟨fun h => absurd h (TOE.added_notin_changedHead p _ rfl),
          fun h => absurd h (TOE.removed_notin_changedHead p _ rfl)⟩
      | num b =>
        rw [TOE.diff_default_eq _ _ _ hbeq trivial,
          TOE.diff_default_eq _ _ _ hbeq2 trivial]
        exact ⟨fun h => absurd h (TOE.added_notin_changedHead p _ rfl),
          fun h => absurd h (TOE.removed_notin_changedHead p _ rfl)⟩
      | str b =>
        rw [TOE.diff_default_eq _ _ _ hbeq trivial,
          TOE.diff_default_eq _ _ _ hbeq2 trivial]
        exact ⟨fun h => absurd h (TOE.added_notin_changedHead p _ rfl),
          fun h => absurd h (TOE.removed_notin_changedHead p _ rfl)⟩
      | arr na =>
        rw [TOE.diff_default_eq _ _ _ hbeq trivial,
          TOE.diff_default_eq _ _ _ hbeq2 trivial]
        exact ⟨fun h => absurd h (TOE.added_notin_changedHead p _ rfl),
          fun h => absurd h (TOE.removed_notin_changedHead p _ rfl)⟩

/-- Elementwise mirror property for the array loop. -/
theorem TOE.JsonList.mirrorElems :
    ∀ (oa : TOE.JsonList), TOE.JsonList.wf oa = true →
      ∀ (na : TOE.JsonList) (path : String) (i : Nat) (p : String),
        TOE.JsonList.wf na = true →
        ((("Added: " ++ p) ∈ TOE.diffElems path i oa na) ↔
          (("Removed: " ++ p) ∈ TOE.diffElems path i na oa))
  | .nil, _, na, path, i, p, _ => by
    cases na <;> simp [TOE.diffElems]
  | .cons x xs, hwf, na, path, i, p, hwfn => by
    cases na with
    | nil => simp [TOE.diffElems]
    | cons y ys =>
      have hx : TOE.Json.wf x = true ∧ TOE.JsonList.wf xs = true := by
        rw [TOE.JsonList.wf, Bool.and_eq_true] at hwf
        exact hwf
      have hy : TOE.Json.wf y = true ∧ TOE.JsonList.wf ys = true := by
        rw [TOE.JsonList.wf, Bool.and_eq_true] at hwfn
        exact hwfn
      rw [show TOE.diffElems path i (TOE.JsonList.cons x xs) (TOE.JsonList.cons y ys) =
          TOE.diff_json_values (path ++ "[" ++ toString i ++ "]") x y ++
            TOE.diffElems path (i + 1) xs ys from rfl,
        show TOE.diffElems path i (TOE.JsonList.cons y ys) (TOE.JsonList.cons x xs) =
          TOE.diff_json_values (path ++ "[" ++ toString i ++ "]") y x ++
            TOE.diffElems path (i + 1) ys xs from rfl]
      rw [List.mem_append, List.mem_append]
      have h1 := TOE.Json.mirror x hx.1 y (path ++ "[" ++ toString i ++ "]") p hy.1
      have h2 := TOE.JsonList.mirrorElems xs hx.2 ys path (i + 1) p hy.2
      constructor
      · rintro (h | h)
        · exact Or.inl (h1.mp h)
        · exact Or.inr (h2.mp h)
      · rintro (h | h)
        · exact Or.inl (h1.mpr h)
        · exact Or.inr (h2.mpr h)

/-- Mirror property for every value stored in a well-formed field list. -/
theorem TOE.JsonFields.mirrorFields :
    ∀ (fs : TOE.JsonFields), TOE.JsonFields.wf fs = true →
      ∀ (k : String) (v : TOE.Json), (k, v) ∈ fs.toList →
        ∀ (new : TOE.Json) (path p : String), TOE.Json.wf new = true →
          ((("Added: " ++ p) ∈ TOE.diff_json_values path v new) ↔
            (("Removed: " ++ p) ∈ TOE.diff_json_values path new v))
  | .nil, _, k, v, hmem, new, path, p, hwfn => by
    simp [TOE.JsonFields.toList] at hmem
  | .cons k' v' tl, hwf, k, v, hmem, new, path, p, hwfn => by
    obtain ⟨hnk, hwv, hwtl⟩ := TOE.wf_fields_parts hwf
    rw [TOE.JsonFields.toList, List.mem_cons] at hmem
    rcases hmem with heq | hmem
    · have hv : v = v' := congrArg Prod.snd heq
      rw [hv]
      exact TOE.Json.mirror v' hwv new path p hwfn
    · exact TOE.JsonFields.mirrorFields tl hwtl k v hmem new path p hwfn

end

namespace TOE

theorem lines_eq_of_parse (X Y : Snapshot) (x y : Json) (hd : ¬ X.data = Y.data)
    (hx : parseJson X.data = some x) (hy : parseJson Y.data = some y) :
    diff_snapshots_lines X Y =
      (match diff_json_values ("") x y with
       | [] => [versionLine X Y, "Data changed but no structural differences detected."]
       | recs => versionLine X Y :: recs) := by
  unfold diff_snapshots_lines
  rw [if_neg hd, hx, hy]

theorem added_mem_lines_iff (X Y : Snapshot) (x y : Json)
    (hx : parseJson X.data = some x) (hy : parseJson Y.data = some y) (q : String) :
    (("Added: " ++ q) ∈ diff_snapshots_lines X Y ↔
      ("Added: " ++ q) ∈ diff_json_values ("") x y) := by
  by_cases hd : X.data = Y.data
  · rw [diff_snapshots_identical X Y hd]
    have hxy : x = y := by
      rw [hd] at hx
      rw [hx] at hy
      exact Option.some.inj hy
    rw [← hxy, diff_nil_of_beq _ _ _ (Json.beq_refl x)]
    constructor
    · intro h
      rcases List.mem_cons.mp h with h1 | h1
      · exact absurd h1 (string_head_ne (show ¬ some 'A' = some 'V' by decide))
      · rw [List.mem_singleton] at h1
        exact absurd h1 (string_head_ne (show ¬ some 'A' = some 'N' by decide))
    · intro h
      exact absurd h (List.not_mem_nil _)
  · rw [lines_eq_of_parse X Y x y hd hx hy]
    cases hrec : diff_json_values ("") x y with
    | nil =>
      constructor
      · intro h
        rcases List.mem_cons.mp h with h1 | h1
        · exact absurd h1 (string_head_ne (show ¬ some 'A' = some 'V' by decide))
        · rw [List.mem_singleton] at h1
          exact absurd h1 (string_head_ne (show ¬ some 'A' = some 'D' by decide))
      · intro h
        exact absurd h (List.not_mem_nil _)
    | cons r rs =>
      constructor
      · intro h
        rcases List.mem_cons.mp h with h1 | h1
        · exact absurd h1 (string_head_ne (show ¬ some 'A' = some 'V' by decide))
        · exact h1
      · intro h
        exact List.mem_cons_of_mem _ h

theorem removed_mem_lines_iff (X Y : Snapshot) (x y : Json)
    (hx : parseJson X.data = some x) (hy : parseJson Y.data = some y) (q : String) :
    (("Removed: " ++ q) ∈ diff_snapshots_lines X Y ↔
      ("Removed: " ++ q) ∈ diff_json_values ("") x y) := by
  by_cases hd : X.data = Y.data
  · rw [diff_snapshots_identical X Y hd]
    have hxy : x = y := by
      rw [hd] at hx
      rw [hx] at hy
      exact Option.some.inj hy
    rw [← hxy, diff_nil_of_beq _ _ _ (Json.beq_refl x)]
    constructor
    · intro h
      rcases List.mem_cons.mp h with h1 | h1
      · exact absurd h1 (string_head_ne (show ¬ some 'R' = some 'V' by decide))
      · rw [List.mem_singleton] at h1
        exact absurd h1 (string_head_ne (show ¬ some 'R' = some 'N' by decide))
    · intro h
      exact absurd h (List.not_mem_nil _)
  · rw [lines_eq_of_parse X Y x y hd hx hy]
    cases hrec : diff_json_values ("") x y with
    | nil =>
      constructor
      · intro h
        rcases List.mem_cons.mp h with h1 | h1
        · exact absurd h1 (string_head_ne (show ¬ some 'R' = some 'V' by decide))
        · rw [List.mem_singleton] at h1
          exact absurd h1 (string_head_ne (show ¬ some 'R' = some 'D' by decide))
      · intro h
        exact absurd h (List.not_mem_nil _)
    | cons r rs =>
      constructor
      · intro h
        rcases List.mem_cons.mp h with h1 | h1
        · exact absurd h1 (string_head_ne (show ¬ some 'R' = some 'V' by decide))
        · exact h1
      · intro h
        exact List.mem_cons_of_mem _ h

/-- C8: for two JSON-parseable snapshots A and B, diff(A, B) reports `Added`
at a path exactly when diff(B, A) reports `Removed` at that path, and
conversely. -/
theorem diff_snapshots_symmetry (A B : Snapshot) (a b : Json)
    (hA : parseJson A.data = some a) (hB : parseJson B.data = some b) (p : String) :
    ((("Added: " ++ p) ∈ diff_snapshots_lines A B) ↔
      (("Removed: " ++ p) ∈ diff_snapshots_lines B A)) ∧
    ((("Removed: " ++ p) ∈ diff_snapshots_lines A B) ↔
      (("Added: " ++ p) ∈ diff_snapshots_lines B A)) := by
  have hwa := parse_wf _ _ hA
  have hwb := parse_wf _ _ hB
  have h1 := added_mem_lines_iff A B a b hA hB p
  have h2 := removed_mem_lines_iff B A b a hB hA p
  have h3 := removed_mem_lines_iff A B a b hA hB p
  have h4 := added_mem_lines_iff B A b a hB hA p
  have hm1 := Json.mirror a hwa b ("") p hwb
  have hm2 := Json.mirror b hwb a ("") p hwa
  exact ⟨h1.trans (hm1.trans h2.symm), h3.trans (hm2.symm.trans h4.symm)⟩

/-- Witness for C8 at concrete snapshots where `country` is added. -/
theorem diff_snapshots_symmetry_witness :
    ((("Added: " ++ "country") ∈ diff_snapshots_lines
        ⟨none, 1, 1, 0, "\x7b\x22name\x22:\x22A\x22\x7d", none⟩
        ⟨none, 1, 2, 0, "\x7b\x22name\x22:\x22A\x22,\x22country\x22:\x22US\x22\x7d", none⟩) ↔
      (("Removed: " ++ "country") ∈ diff_snapshots_lines
        ⟨none, 1, 2, 0, "\x7b\x22name\x22:\x22A\x22,\x22country\x22:\x22US\x22\x7d", none⟩
        ⟨none, 1, 1, 0, "\x7b\x22name\x22:\x22A\x22\x7d", none⟩)) ∧
    ((("Removed: " ++ "country") ∈ diff_snapshots_lines
        ⟨none, 1, 1, 0, "\x7b\x22name\x22:\x22A\x22\x7d", none⟩
        ⟨none, 1, 2, 0, "\x7b\x22name\x22:\x22A\x22,\x22country\x22:\x22US\x22\x7d", none⟩) ↔
      (("Added: " ++ "country") ∈ diff_snapshots_lines
        ⟨none, 1, 2, 0, "\x7b\x22name\x22:\x22A\x22,\x22country\x22:\x22US\x22\x7d", none⟩
        ⟨none, 1, 1, 0, "\x7b\x22name\x22:\x22A\x22\x7d", none⟩)) :=
  diff_snapshots_symmetry
    ⟨none, 1, 1, 0, "\x7b\x22name\x22:\x22A\x22\x7d", none⟩
    ⟨none, 1, 2, 0, "\x7b\x22name\x22:\x22A\x22,\x22country\x22:\x22US\x22\x7d", none⟩
    (Json.obj (JsonFields.cons ("name") (Json.str ("A")) JsonFields.nil))
    (Json.obj (JsonFields.cons ("name") (Json.str ("A"))
      (JsonFields.cons ("country") (Json.str ("US")) JsonFields.nil)))
    rfl rfl ("country")

end TOE
